import Mathlib

/-! The HTTP client of nextcloud-cli, `pkg/nextcloud/cloud.go`.

A shallow embedding of the client (`NewStorage`, the WebDAV operations, the
group-folder and share operations, `UploadDir`) together with the theorems
about it.

The client is written against Go's standard library.  What the library does
is not part of the repository, so the embedding takes it as a parameter
(`Lib`): URL parsing and resolution, request validation, the HTTP round trip,
the file system and the XML decoder.  Only `path/filepath` (`Clean`, `Join`,
`Base`, Unix flavour) and `%d` formatting are written out, because the paths
the client builds are decided by them.

Every method takes the state of the outside world and returns the new one
next to its Go result; the state also records each request handed to the
transport (`State.sent`), which is how "sends exactly this request" is stated.

Order of the file: the embedding of cloud.go; the steps of the send methods
and the operation families the theorems quantify over; a small reference
library (`Ref.refLib`) on which the client is run at concrete inputs; lemmas;
the theorems, one group per claim.
-/

set_option autoImplicit false
set_option linter.dupNamespace false

namespace Nextcloud

/-! ## Values shared with the library -/

/-- Go's `[]byte`. -/
abbrev Bytes := List UInt8

/-- The struct `Error` of cloud.go: the error document a WebDAV server sends. -/
structure Error where
  Exception : String
  Message : String
  deriving DecidableEq, Repr

/-- The struct `cloud.ShareElement` of storage.go. -/
structure ShareElement where
  Id : Nat
  Url : String
  deriving DecidableEq, Repr

/-- The struct `cloud.ShareResult` of storage.go (`XMLName` only steers the decoder). -/
structure ShareResult where
  Status : String
  StatusCode : Nat
  Message : String
  Id : Nat
  Url : String
  Elements : List ShareElement
  deriving DecidableEq, Repr

/-- A Go `error` value, by the dynamic type behind the interface:
`errorString` is what `errors.New` and `fmt.Errorf` (without `%w`) build,
`remote` is a `*Error` of this package, `foreign` is an error value handed
back by a library call (net/url, net/http, io, encoding/xml, os, path/filepath). -/
inductive GoError where
  | errorString (text : String)
  | remote (e : Error)
  | foreign (pkg : String) (text : String)
  deriving DecidableEq, Repr

/-- The method `(*Error).Error` of cloud.go. -/
def Error.Error (e : Error) : String :=
  "Exception: " ++ e.Exception ++ ", Message: " ++ e.Message

/-- What a request carries as its body: `bytes.NewReader(data)` or `strings.NewReader(data)`. -/
inductive Body where
  | raw (data : Bytes)
  | text (data : String)
  deriving DecidableEq, Repr

/-- The parts of an `*http.Request` the client sets. -/
structure Request where
  Method : String
  URL : String
  Header : List (String × String)
  BasicAuth : Option (String × String)
  Body : Body
  deriving DecidableEq, Repr

/-- The parts of an `*http.Response` the client could look at: the status code
and what `io.ReadAll(resp.Body)` yields. -/
structure Response where
  StatusCode : Nat
  Body : Except GoError Bytes

/-! ## path/filepath (Unix) -/

/-- Cut a path at every `/`. -/
def splitSlash : List Char → List (List Char)
  | [] => [[]]
  | c :: cs =>
    match splitSlash cs with
    | [] => [[]]
    | seg :: rest => if c = '/' then [] :: seg :: rest else (c :: seg) :: rest

/-- One path element of `filepath.Clean`; `stack` holds the elements kept so
far, the last one first.  Empty and `.` elements are dropped; `..` removes
the element before it when that is not itself `..`, is dropped at the root of
a rooted path, and is kept otherwise. -/
def cleanStep (rooted : Bool) (stack : List (List Char)) (seg : List Char) : List (List Char) :=
  if seg = [] ∨ seg = ['.'] then stack
  else if seg = ['.', '.'] then
    match stack with
    | [] => if rooted then [] else [seg]
    | top :: below => if top = ['.', '.'] then seg :: stack else below
  else seg :: stack

/-- Elements joined with `/`. -/
def joinSlash : List (List Char) → List Char
  | [] => []
  | [seg] => seg
  | seg :: rest => seg ++ '/' :: joinSlash rest

/-- Go's `filepath.Clean` on a Unix target. -/
def filepathClean (path : String) : String :=
  match path.data with
  | [] => "."
  | c :: cs =>
    let rooted := decide (c = '/')
    let kept := ((splitSlash (c :: cs)).foldl (cleanStep rooted) []).reverse
    let out := (if rooted then ['/'] else []) ++ joinSlash kept
    if out = [] then "." else String.mk out

/-- Go's `strings.Join(elem, "/")`. -/
def stringsJoinSlash : List String → String
  | [] => ""
  | [e] => e
  | e :: rest => e ++ "/" ++ stringsJoinSlash rest

/-- Go's `filepath.Join` on a Unix target: leading empty elements are
ignored, the rest is joined with `/` and cleaned; all empty gives `""`. -/
def filepathJoin : List String → String
  | [] => ""
  | e :: rest => if e = "" then filepathJoin rest else filepathClean (stringsJoinSlash (e :: rest))

/-- Strip the trailing slashes of a path given back to front. -/
def dropSlashes : List Char → List Char
  | [] => []
  | c :: cs => if c = '/' then dropSlashes cs else c :: cs

/-- Go's `filepath.Base` on a Unix target. -/
def filepathBase (path : String) : String :=
  if path = "" then "."
  else
    let stripped := dropSlashes path.data.reverse
    let last := (stripped.takeWhile (fun c => c ≠ '/')).reverse
    if last = [] then "/" else String.mk last

/-- The verb `%d` of `fmt.Sprintf` on a `uint`. -/
def fmtUint (n : Nat) : String := toString n

/-- The verb `%d` of `fmt.Sprintf` on an `int`. -/
def fmtInt (i : Int) : String := toString i

/-- The number a decimal numeral stands for. -/
def decimalValue (text : String) : Nat :=
  text.data.foldl (fun acc c => 10 * acc + (c.toNat - 48)) 0

/-! ## The standard library and the outside world, as a parameter -/

/-- What the client asks of Go's standard library and of the world it runs in.
`World` is everything outside the process (the server, the network, the local
file system); a round trip may change it. -/
structure Lib where
  /-- The type `*url.URL`. -/
  URL : Type
  /-- The state of the server, the network and the file system. -/
  World : Type
  /-- The function `url.Parse`. -/
  urlParse : String → Except GoError URL
  /-- The method `(*url.URL).ResolveReference`, receiver first. -/
  ResolveReference : URL → URL → URL
  /-- The method `(*url.URL).String`. -/
  urlString : URL → String
  /-- The error of `http.NewRequest(method, url, body)`, if it reports one. -/
  newRequestError : String → String → Option GoError
  /-- The round trip `(&http.Client{}).Do(req)`. -/
  Do : World → Request → Except GoError Response × World
  /-- The function `filepath.Glob`. -/
  Glob : World → String → Except GoError (List String)
  /-- The function `os.ReadFile`. -/
  ReadFile : World → String → Except GoError Bytes
  /-- The call `xml.Unmarshal(body, &Error{})`. -/
  unmarshalError : Bytes → Except GoError Error
  /-- The call `xml.Unmarshal(body, &cloud.ShareResult{})`. -/
  unmarshalShareResult : Bytes → Except GoError ShareResult

/-- The world together with the requests handed to `client.Do` so far, oldest first. -/
structure State (L : Lib) where
  world : L.World
  sent : List Request

/-- The struct `Client` of cloud.go. -/
structure Client (L : Lib) where
  Url : L.URL
  Username : String
  Password : String

/-- A Go result pair `(value, error)`; `none` is the `nil` the code returns
literally, and a value obtained from a call is `some`, also when it is an
empty slice. -/
abbrev Ret (α : Type) := Option α × Option GoError

/-- The function `NewStorage` of cloud.go. -/
def NewStorage (L : Lib) (cloudUrl username password : String) : Ret (Client L) :=
  if cloudUrl = "" then (none, some (.errorString "missing url"))
  else if username = "" ∨ password = "" then (none, some (.errorString "missing credentials"))
  else
    match L.urlParse cloudUrl with
    | .error _ => (none, some (.errorString "invalid url"))
    | .ok parsedUrl => (some { Url := parsedUrl, Username := username, Password := password }, none)

/-- The function `Dial` of cloud.go. -/
def Dial (L : Lib) (host username password : String) : Ret (Client L) :=
  match L.urlParse host with
  | .error err => (none, some err)
  | .ok parsedUrl => (some { Url := parsedUrl, Username := username, Password := password }, none)

/-- The call `http.NewRequest(method, url, body)`: the library's validation,
then a request with no header and no credentials yet (an empty method means GET). -/
def NewRequest (L : Lib) (method url : String) (body : Body) : Except GoError Request :=
  match L.newRequestError method url with
  | some err => .error err
  | none =>
    .ok { Method := if method = "" then "GET" else method, URL := url, Header := [],
          BasicAuth := none, Body := body }

/-- The method `req.Header.Add`. -/
def Request.HeaderAdd (req : Request) (key value : String) : Request :=
  { req with Header := req.Header ++ [(key, value)] }

/-- The method `req.SetBasicAuth`. -/
def Request.SetBasicAuth (req : Request) (username password : String) : Request :=
  { req with BasicAuth := some (username, password) }

/-- The call `client.Do(req)`: the request is handed to the transport and recorded. -/
def clientDo (L : Lib) (s : State L) (req : Request) : Except GoError Response × State L :=
  let r := L.Do s.world req
  (r.1, { world := r.2, sent := s.sent ++ [req] })

/-- The method `sendWebDavRequest` of cloud.go. -/
def sendWebDavRequest (L : Lib) (c : Client L) (request path : String) (data : Bytes)
    (s : State L) : Ret Bytes × State L :=
  let webdavPath := filepathJoin ["remote.php/webdav", path]
  match L.urlParse webdavPath with
  | .error err => ((none, some err), s)
  | .ok folderUrl =>
    match NewRequest L request (L.urlString (L.ResolveReference c.Url folderUrl)) (.raw data) with
    | .error err => ((none, some err), s)
    | .ok req =>
      let req := req.SetBasicAuth c.Username c.Password
      match clientDo L s req with
      | (.error err, s1) => ((none, some err), s1)
      | (.ok resp, s1) =>
        match resp.Body with
        | .error err => ((none, some err), s1)
        | .ok body =>
          if body.length > 0 then
            if body.head? = some 0x3C then
              match L.unmarshalError body with
              | .error decodeErr => ((some body, some decodeErr), s1)
              | .ok reqErr =>
                if reqErr.Exception ≠ "" then ((none, some (.remote reqErr)), s1)
                else ((some body, none), s1)
            else ((some body, none), s1)
          else ((some body, none), s1)

/-- The method `Mkdir` of cloud.go. -/
def Mkdir (L : Lib) (c : Client L) (path : String) (s : State L) : Option GoError × State L :=
  let r := sendWebDavRequest L c "MKCOL" path [] s
  (r.1.2, r.2)

/-- The method `Delete` of cloud.go. -/
def Delete (L : Lib) (c : Client L) (path : String) (s : State L) : Option GoError × State L :=
  let r := sendWebDavRequest L c "DELETE" path [] s
  (r.1.2, r.2)

/-- The method `Upload` of cloud.go. -/
def Upload (L : Lib) (c : Client L) (src : Bytes) (dest : String) (s : State L) :
    Option GoError × State L :=
  let r := sendWebDavRequest L c "PUT" dest src s
  (r.1.2, r.2)

/-- The method `Download` of cloud.go. -/
def Download (L : Lib) (c : Client L) (path : String) (s : State L) : Ret Bytes × State L :=
  sendWebDavRequest L c "GET" path [] s

/-- The method `Exists` of cloud.go. -/
def Exists (L : Lib) (c : Client L) (path : String) (s : State L) : Bool × State L :=
  let r := sendWebDavRequest L c "PROPFIND" path [] s
  (r.1.2.isNone, r.2)

/-- The loop of `UploadDir`: read a file, upload it under its base name, stop
at the first error. -/
def uploadFiles (L : Lib) (c : Client L) (dest : String) :
    List String → State L → Option GoError × State L
  | [], s => (none, s)
  | file :: rest, s =>
    match L.ReadFile s.world file with
    | .error err => (some err, s)
    | .ok data =>
      match Upload L c data (filepathJoin [dest, filepathBase file]) s with
      | (some err, s1) => (some err, s1)
      | (none, s1) => uploadFiles L c dest rest s1

/-- The method `UploadDir` of cloud.go. -/
def UploadDir (L : Lib) (c : Client L) (src dest : String) (s : State L) :
    Ret (List String) × State L :=
  match L.Glob s.world src with
  | .error err => ((none, some err), s)
  | .ok files =>
    match uploadFiles L c dest files s with
    | (some err, s1) => ((none, some err), s1)
    | (none, s1) => ((some files, none), s1)

/-- The method `sendAppsRequest` of cloud.go. -/
def sendAppsRequest (L : Lib) (c : Client L) (request path data : String)
    (s : State L) : Ret ShareResult × State L :=
  let appsPath := filepathJoin ["apps", path]
  match L.urlParse appsPath with
  | .error err => ((none, some err), s)
  | .ok folderUrl =>
    match NewRequest L request (L.urlString (L.ResolveReference c.Url folderUrl)) (.text data) with
    | .error err => ((none, some err), s)
    | .ok req =>
      let req := req.HeaderAdd "OCS-APIRequest" "true"
      let req := req.HeaderAdd "Content-Type" "application/x-www-form-urlencoded"
      let req := req.SetBasicAuth c.Username c.Password
      match clientDo L s req with
      | (.error err, s1) => ((none, some err), s1)
      | (.ok resp, s1) =>
        match resp.Body with
        | .error err => ((none, some err), s1)
        | .ok body =>
          match L.unmarshalShareResult body with
          | .error err => ((none, some err), s1)
          | .ok result =>
            if result.StatusCode ≠ 100 then
              ((none, some (.errorString
                ("share API returned an unsuccessful status code " ++ fmtUint result.StatusCode))), s1)
            else ((some result, none), s1)

/-- The method `sendOCSRequest` of cloud.go. -/
def sendOCSRequest (L : Lib) (c : Client L) (request path data : String)
    (s : State L) : Ret ShareResult × State L :=
  let appsPath := filepathJoin ["ocs/v2.php/apps/files_sharing/api/v1", path]
  match L.urlParse appsPath with
  | .error err => ((none, some err), s)
  | .ok folderUrl =>
    match NewRequest L request (L.urlString (L.ResolveReference c.Url folderUrl)) (.text data) with
    | .error err => ((none, some err), s)
    | .ok req =>
      let req := req.HeaderAdd "OCS-APIRequest" "true"
      let req := req.HeaderAdd "Content-Type" "application/x-www-form-urlencoded"
      let req := req.SetBasicAuth c.Username c.Password
      match clientDo L s req with
      | (.error err, s1) => ((none, some err), s1)
      | (.ok resp, s1) =>
        match resp.Body with
        | .error err => ((none, some err), s1)
        | .ok body =>
          match L.unmarshalShareResult body with
          | .error err => ((none, some err), s1)
          | .ok result =>
            if result.StatusCode ≠ 200 then
              ((none, some (.errorString
                ("share API returned an unsuccessful status code " ++ fmtUint result.StatusCode))), s1)
            else ((some result, none), s1)

/-- The method `CreateGroupFolder` of cloud.go. -/
def CreateGroupFolder (L : Lib) (c : Client L) (mountPoint : String) (s : State L) :
    Ret ShareResult × State L :=
  sendAppsRequest L c "POST" "groupfolders/folders" ("mountpoint=" ++ mountPoint) s

/-- The method `AddGroupToGroupFolder` of cloud.go. -/
def AddGroupToGroupFolder (L : Lib) (c : Client L) (group : String) (folderId : Nat)
    (s : State L) : Ret ShareResult × State L :=
  sendAppsRequest L c "POST" ("groupfolders/folders/" ++ fmtUint folderId ++ "/groups")
    ("group=" ++ group) s

/-- The method `SetGroupPermissionsForGroupFolder` of cloud.go. -/
def SetGroupPermissionsForGroupFolder (L : Lib) (c : Client L) (permissions : Int)
    (group : String) (folderId : Nat) (s : State L) : Ret ShareResult × State L :=
  sendAppsRequest L c "POST"
    ("apps/groupfolders/folders/" ++ fmtUint folderId ++ "/groups/" ++ group)
    ("permissions=" ++ fmtInt permissions) s

/-- The method `CreateShare` of cloud.go. -/
def CreateShare (L : Lib) (c : Client L) (path : String) (shareType : Int)
    (publicUpload : String) (permissions : Int) (s : State L) : Ret ShareResult × State L :=
  sendOCSRequest L c "POST" "shares"
    ("path=" ++ path ++ "&shareType=" ++ fmtInt shareType ++ "&publicUpload=" ++ publicUpload
      ++ "&permissions=" ++ fmtInt permissions) s

/-- The method `GetShare` of cloud.go. -/
def GetShare (L : Lib) (c : Client L) (path : String) (s : State L) : Ret ShareResult × State L :=
  sendOCSRequest L c "GET" ("shares?path=" ++ path) "" s

/-- The method `DeleteShare` of cloud.go. -/
def DeleteShare (L : Lib) (c : Client L) (id : Nat) (s : State L) : Ret ShareResult × State L :=
  sendOCSRequest L c "DELETE" ("shares/" ++ fmtUint id) "" s

/-- The method `CreateFileDropShare` of cloud.go.  The second case cannot
arise (`sendOCSRequest_result`): it is where Go would dereference a nil result. -/
def CreateFileDropShare (L : Lib) (c : Client L) (path : String) (s : State L) :
    Ret ShareResult × State L :=
  match CreateShare L c path 3 "true" 4 s with
  | ((_, some err), s1) => ((none, some err), s1)
  | ((none, none), s1) => ((none, none), s1)
  | ((some result, none), s1) =>
    let id := result.Id
    sendOCSRequest L c "PUT" ("shares/" ++ fmtUint id) "permissions=4" s1

/-- The method `CreateReadOnlyShare` of cloud.go.  The second case cannot
arise (`sendOCSRequest_result`): it is where Go would dereference a nil result. -/
def CreateReadOnlyShare (L : Lib) (c : Client L) (path : String) (s : State L) :
    Ret ShareResult × State L :=
  match CreateShare L c path 3 "true" 4 s with
  | ((_, some err), s1) => ((none, some err), s1)
  | ((none, none), s1) => ((none, none), s1)
  | ((some result, none), s1) =>
    let id := result.Id
    sendOCSRequest L c "PUT" ("shares/" ++ fmtUint id) "permissions=1" s1

/-! ## The three send methods, step by step

Each send method builds a request, hands it to the transport, reads the body
and interprets it.  The definitions below name these steps; the lemmas that
follow show that the methods are exactly their composition. -/

/-- The request a send method builds for `path` under `root`, or the error
that stops it before anything is sent. -/
def buildRequest (L : Lib) (c : Client L) (root : String) (header : List (String × String))
    (request path : String) (body : Body) : Except GoError Request :=
  match L.urlParse (filepathJoin [root, path]) with
  | .error err => .error err
  | .ok folderUrl =>
    match L.newRequestError request (L.urlString (L.ResolveReference c.Url folderUrl)) with
    | some err => .error err
    | none =>
      .ok { Method := if request = "" then "GET" else request,
            URL := L.urlString (L.ResolveReference c.Url folderUrl),
            Header := header, BasicAuth := some (c.Username, c.Password), Body := body }

/-- The two headers of an Apps or OCS request. -/
def ocsHeader : List (String × String) :=
  [("OCS-APIRequest", "true"), ("Content-Type", "application/x-www-form-urlencoded")]

/-- The round trip and the reading of the body. -/
def exchange (L : Lib) (s : State L) (req : Request) : Except GoError Bytes × State L :=
  match L.Do s.world req with
  | (.error err, w1) => (.error err, { world := w1, sent := s.sent ++ [req] })
  | (.ok resp, w1) => (resp.Body, { world := w1, sent := s.sent ++ [req] })

/-- What `sendWebDavRequest` makes of a body. -/
def davOutcome (L : Lib) (body : Bytes) : Ret Bytes :=
  match body with
  | [] => (some body, none)
  | b :: _ =>
    if b = 0x3C then
      match L.unmarshalError body with
      | .error decodeErr => (some body, some decodeErr)
      | .ok reqErr => if reqErr.Exception = "" then (some body, none) else (none, some (.remote reqErr))
    else (some body, none)

/-- The error of an Apps or Share response whose status code is not the expected one. -/
def apiError (code : Nat) : GoError :=
  .errorString ("share API returned an unsuccessful status code " ++ fmtUint code)

/-- What `sendAppsRequest` (`want = 100`) and `sendOCSRequest` (`want = 200`) make of a body. -/
def shareOutcome (L : Lib) (want : Nat) (body : Bytes) : Ret ShareResult :=
  match L.unmarshalShareResult body with
  | .error err => (none, some err)
  | .ok result => if result.StatusCode = want then (some result, none) else (none, some (apiError result.StatusCode))

/-- A send method as the composition of its steps. -/
def sendVia {α : Type} (L : Lib) (built : Except GoError Request) (outcome : Bytes → Ret α)
    (s : State L) : Ret α × State L :=
  match built with
  | .error err => ((none, some err), s)
  | .ok req =>
    match exchange L s req with
    | (.error err, s1) => ((none, some err), s1)
    | (.ok body, s1) => (outcome body, s1)

/-! ## The WebDAV operations as one family -/

/-- The five WebDAV operations of the `Storage` interface. -/
inductive DavOp where
  | Mkdir
  | Delete
  | Upload (src : Bytes)
  | Download
  | Exists

/-- The verb an operation passes to `sendWebDavRequest`. -/
def DavOp.verb : DavOp → String
  | .Mkdir => "MKCOL"
  | .Delete => "DELETE"
  | .Upload _ => "PUT"
  | .Download => "GET"
  | .Exists => "PROPFIND"

/-- The data an operation passes to `sendWebDavRequest` (`nil` reads as no bytes). -/
def DavOp.data : DavOp → Bytes
  | .Upload src => src
  | _ => []

/-- What the caller of an operation gets back. -/
inductive DavResult where
  | error (err : Option GoError)
  | bytes (ret : Ret Bytes)
  | bool (b : Bool)
  deriving DecidableEq

/-- An operation run on a path. -/
def DavOp.run (L : Lib) (c : Client L) (op : DavOp) (path : String) (s : State L) :
    DavResult × State L :=
  match op with
  | .Mkdir => (.error (Nextcloud.Mkdir L c path s).1, (Nextcloud.Mkdir L c path s).2)
  | .Delete => (.error (Nextcloud.Delete L c path s).1, (Nextcloud.Delete L c path s).2)
  | .Upload src => (.error (Nextcloud.Upload L c src path s).1, (Nextcloud.Upload L c src path s).2)
  | .Download => (.bytes (Nextcloud.Download L c path s).1, (Nextcloud.Download L c path s).2)
  | .Exists => (.bool (Nextcloud.Exists L c path s).1, (Nextcloud.Exists L c path s).2)

/-- What an operation returns when its `sendWebDavRequest` returns `ret`:
`Mkdir`, `Delete` and `Upload` the error alone, `Download` both values,
`Exists` whether the error is nil. -/
def DavOp.returns : DavOp → Ret Bytes → DavResult
  | .Download, ret => .bytes ret
  | .Exists, ret => .bool ret.2.isNone
  | _, ret => .error ret.2

/-! ## The group-folder and share operations as one family -/

/-- The three Apps operations and the three Share operations of the `Storage` interface. -/
inductive ApiOp where
  | CreateGroupFolder (mountPoint : String)
  | AddGroupToGroupFolder (group : String) (folderId : Nat)
  | SetGroupPermissionsForGroupFolder (permissions : Int) (group : String) (folderId : Nat)
  | CreateShare (path : String) (shareType : Int) (publicUpload : String) (permissions : Int)
  | GetShare (path : String)
  | DeleteShare (id : Nat)

/-- Whether the operation goes through `sendAppsRequest` (else `sendOCSRequest`). -/
def ApiOp.isApps : ApiOp → Bool
  | .CreateGroupFolder _ => true
  | .AddGroupToGroupFolder _ _ => true
  | .SetGroupPermissionsForGroupFolder _ _ _ => true
  | _ => false

/-- The status code that means success: 100 for Apps, 200 for Share. -/
def ApiOp.want (op : ApiOp) : Nat := if op.isApps then 100 else 200

/-- The directory the send method joins the path to. -/
def ApiOp.root (op : ApiOp) : String :=
  if op.isApps then "apps" else "ocs/v2.php/apps/files_sharing/api/v1"

/-- The verb the operation passes to its send method. -/
def ApiOp.verb : ApiOp → String
  | .GetShare _ => "GET"
  | .DeleteShare _ => "DELETE"
  | _ => "POST"

/-- The path the operation passes to its send method. -/
def ApiOp.path : ApiOp → String
  | .CreateGroupFolder _ => "groupfolders/folders"
  | .AddGroupToGroupFolder _ folderId => "groupfolders/folders/" ++ fmtUint folderId ++ "/groups"
  | .SetGroupPermissionsForGroupFolder _ group folderId =>
    "apps/groupfolders/folders/" ++ fmtUint folderId ++ "/groups/" ++ group
  | .CreateShare _ _ _ _ => "shares"
  | .GetShare path => "shares?path=" ++ path
  | .DeleteShare id => "shares/" ++ fmtUint id

/-- The form data the operation passes to its send method. -/
def ApiOp.data : ApiOp → String
  | .CreateGroupFolder mountPoint => "mountpoint=" ++ mountPoint
  | .AddGroupToGroupFolder group _ => "group=" ++ group
  | .SetGroupPermissionsForGroupFolder permissions _ _ => "permissions=" ++ fmtInt permissions
  | .CreateShare path shareType publicUpload permissions =>
    "path=" ++ path ++ "&shareType=" ++ fmtInt shareType ++ "&publicUpload=" ++ publicUpload
      ++ "&permissions=" ++ fmtInt permissions
  | .GetShare _ => ""
  | .DeleteShare _ => ""

/-- An operation run. -/
def ApiOp.run (L : Lib) (c : Client L) (op : ApiOp) (s : State L) : Ret ShareResult × State L :=
  match op with
  | .CreateGroupFolder mountPoint => Nextcloud.CreateGroupFolder L c mountPoint s
  | .AddGroupToGroupFolder group folderId => Nextcloud.AddGroupToGroupFolder L c group folderId s
  | .SetGroupPermissionsForGroupFolder permissions group folderId =>
    Nextcloud.SetGroupPermissionsForGroupFolder L c permissions group folderId s
  | .CreateShare path shareType publicUpload permissions =>
    Nextcloud.CreateShare L c path shareType publicUpload permissions s
  | .GetShare path => Nextcloud.GetShare L c path s
  | .DeleteShare id => Nextcloud.DeleteShare L c id s

/-- The two composite share operations: `CreateFileDropShare` (`drop = true`)
and `CreateReadOnlyShare` (`drop = false`). -/
def compositeShare (L : Lib) (c : Client L) (drop : Bool) (path : String) (s : State L) :
    Ret ShareResult × State L :=
  match drop with
  | true => CreateFileDropShare L c path s
  | false => CreateReadOnlyShare L c path s

/-- The form data of the follow-up request of a composite share operation. -/
def narrowed (drop : Bool) : String :=
  match drop with
  | true => "permissions=4"
  | false => "permissions=1"

/-- A path that `filepath.Clean` leaves alone: elements separated by single
slashes, none of them empty, `.` or `..`. -/
@[reducible]
def CleanRel (path : String) : Prop :=
  ∀ seg ∈ splitSlash path.data, seg ≠ [] ∧ seg ≠ ['.'] ∧ seg ≠ ['.', '.']

/-- Every file of the list is read and uploaded, in order, each read and each
upload succeeding: `data` are the contents read, `s` the state before the
first file and the last argument the state after the last upload. -/
inductive UploadedAll (L : Lib) (c : Client L) (dest : String) :
    List String → List Bytes → State L → State L → Prop where
  | nil (s : State L) : UploadedAll L c dest [] [] s s
  | cons (file : String) (rest : List String) (data : Bytes) (datas : List Bytes)
      (s s1 s2 : State L) :
      L.ReadFile s.world file = .ok data →
      Upload L c data (filepathJoin [dest, filepathBase file]) s = (none, s1) →
      UploadedAll L c dest rest datas s1 s2 →
      UploadedAll L c dest (file :: rest) (data :: datas) s s2

/-- The state after a failed attempt at one file: the read fails and nothing
changes, or the read succeeds and the upload fails. -/
def FailsAt (L : Lib) (c : Client L) (dest file : String) (s : State L) (err : GoError)
    (s2 : State L) : Prop :=
  (L.ReadFile s.world file = .error err ∧ s2 = s) ∨
  (∃ data, L.ReadFile s.world file = .ok data ∧
    Upload L c data (filepathJoin [dest, filepathBase file]) s = (some err, s2))

/-! ## A reference library

`refLib` is a small, executable instance of `Lib`, used only to run the client
on concrete inputs.  Every general theorem below is stated for an arbitrary
`Lib`.  It follows Go on a fragment and reports what lies outside of it as an
error marked `outside the fragment`, never as a value:

* URLs: `http://host[:port]path[?query]`, `https://...` or a reference
  `path[?query]` without colon, over letters, digits and `/ . - _ ~ *` (and
  `= & ?` in the query); no userinfo, escapes, fragment or opaque form;
* XML: start tags `<name>`, end tags `</name>` and character data with the
  five predefined entities, in ASCII and without `>`; no declaration,
  attribute, prefix, comment or CDATA section;
* the transport: it refuses a URL without scheme or host; otherwise the server
  gives its scripted replies first, and then keeps what is PUT and returns it
  on GET. -/

namespace Ref

/-- ASCII text as bytes. -/
def bytesOf (text : String) : Bytes := text.data.map (fun c => UInt8.ofNat c.toNat)

/-- Bytes as characters, one each. -/
def charsOf (b : Bytes) : List Char := b.map (fun x => Char.ofNat x.toNat)

/-- The fields of a `url.URL` the fragment needs. -/
structure URL where
  Scheme : String
  Host : String
  Path : String
  RawQuery : String := ""
  deriving DecidableEq, Repr

/-- Characters a path of the fragment may hold. -/
def urlChar (c : Char) : Bool :=
  c.isAlphanum || c = '/' || c = '.' || c = '-' || c = '_' || c = '~' || c = '*'

/-- Characters a query of the fragment may hold. -/
def queryChar (c : Char) : Bool := urlChar c || c = '=' || c = '&' || c = '?'

/-- Cut a text at the first occurrence of a character, which is dropped;
the second part is `none` when the character does not occur. -/
def cutAt (stop : Char) : List Char → List Char × Option (List Char)
  | [] => ([], none)
  | c :: cs => if c = stop then ([], some cs) else ((cutAt stop cs).1.cons c, (cutAt stop cs).2)

/-- Split `host/path` at the first slash, which stays with the path. -/
def cutHost : List Char → List Char × List Char
  | [] => ([], [])
  | c :: cs => if c = '/' then ([], c :: cs) else ((cutHost cs).1.cons c, (cutHost cs).2)

/-- A host of the fragment: a name over letters, digits, `.` and `-`, and
possibly a colon and a decimal port. -/
def validHost (host : List Char) : Bool :=
  let name := (cutAt ':' host).1
  name.all (fun c => c.isAlphanum || c = '.' || c = '-') &&
    match (cutAt ':' host).2 with
    | none => true
    | some port => port.all Char.isDigit

/-- A URL of the fragment from its parts, once the query (what follows the
first `?`, if any) is cut off. -/
def parseParts (scheme : String) (host path : List Char) (query : Option (List Char)) :
    Except GoError URL :=
  if query = some [] ∨ !validHost host ∨ !path.all urlChar ∨ !(query.getD []).all queryChar then
    .error (.foreign "net/url" "outside the fragment")
  else
    .ok { Scheme := scheme, Host := String.mk host, Path := String.mk path,
          RawQuery := String.mk (query.getD []) }

/-- The function `url.Parse` on the fragment. -/
def urlParse (rawURL : String) : Except GoError URL :=
  let cs := rawURL.data
  if cs.any (fun c => c.toNat < 32 || c.toNat = 127) then
    .error (.foreign "net/url" "invalid control character in URL")
  else
    match cs with
    | 'h' :: 't' :: 't' :: 'p' :: ':' :: '/' :: '/' :: rest =>
      parseParts "http" (cutHost (cutAt '?' rest).1).1 (cutHost (cutAt '?' rest).1).2
        (cutAt '?' rest).2
    | 'h' :: 't' :: 't' :: 'p' :: 's' :: ':' :: '/' :: '/' :: rest =>
      parseParts "https" (cutHost (cutAt '?' rest).1).1 (cutHost (cutAt '?' rest).1).2
        (cutAt '?' rest).2
    | _ =>
      if cs.contains ':' then .error (.foreign "net/url" "outside the fragment")
      else parseParts "" [] (cutAt '?' cs).1 (cutAt '?' cs).2

/-- The text before the last slash, or `none` when there is no slash. -/
def beforeLastSlash (cs : List Char) : Option (List Char) :=
  if cs.contains '/' then some ((cs.reverse.dropWhile (fun c => c ≠ '/')).drop 1).reverse
  else none

/-- One element of the loop of `resolvePath`: whether the next element is the
first to be written, and the text written so far (it starts with a slash).
A `.` is dropped, a `..` removes the element before it, any other element is
written after a slash. -/
def resolveStep (st : Bool × List Char) (elem : List Char) : Bool × List Char :=
  if elem = ['.'] then (false, st.2)
  else if elem = ['.', '.'] then
    match beforeLastSlash (st.2.drop 1) with
    | none => (true, ['/'])
    | some kept => (st.1, '/' :: kept)
  else (false, st.2 ++ (if st.1 then [] else ['/']) ++ elem)

/-- The function `resolvePath` of net/url: the reference path merged into the
base path, dot segments removed, and a rooted result. -/
def resolvePath (base ref : String) : String :=
  let full :=
    match ref.data with
    | [] => base.data
    | '/' :: _ => ref.data
    | _ => ((base.data.reverse.dropWhile (fun c => c ≠ '/')).reverse) ++ ref.data
  match full with
  | [] => ""
  | _ =>
    let elems := splitSlash full
    let dst := (elems.foldl resolveStep (true, ['/'])).2
    let dst := if elems.getLast? = some ['.'] ∨ elems.getLast? = some ['.', '.'] then dst ++ ['/']
               else dst
    match dst with
    | '/' :: '/' :: more => String.mk ('/' :: more)
    | _ => String.mk dst

/-- The method `ResolveReference` on the fragment. -/
def ResolveReference (u ref : URL) : URL :=
  if ref.Scheme ≠ "" ∨ ref.Host ≠ "" then
    { Scheme := if ref.Scheme = "" then u.Scheme else ref.Scheme, Host := ref.Host,
      Path := resolvePath ref.Path "", RawQuery := ref.RawQuery }
  else
    { Scheme := u.Scheme, Host := u.Host, Path := resolvePath u.Path ref.Path,
      RawQuery := if ref.Path = "" ∧ ref.RawQuery = "" then u.RawQuery else ref.RawQuery }

/-- The method `String` on the fragment. -/
def urlString (u : URL) : String :=
  (if u.Scheme ≠ "" then u.Scheme ++ ":" else "")
    ++ (if (u.Scheme ≠ "" ∨ u.Host ≠ "") ∧ (u.Host ≠ "" ∨ u.Path ≠ "") then "//" else "")
    ++ u.Host
    ++ (if u.Path ≠ "" ∧ u.Path.data.head? ≠ some '/' ∧ u.Host ≠ "" then "/" else "")
    ++ u.Path
    ++ (if u.RawQuery ≠ "" then "?" ++ u.RawQuery else "")

/-- What the scan of a document reports, in document order: an element opens
(names from the root down to it), or character data sits directly in it. -/
inductive Event where
  | start (path : List String)
  | chars (path : List String) (text : String)
  deriving DecidableEq, Repr

/-- The scanner: open elements (innermost first), whether a tag is being
read, the pending characters (last first), whether the root element has
closed, the line reached, and the events so far (last first). -/
structure Scan where
  stack : List String
  inTag : Bool
  buf : List Char
  done : Bool
  line : Nat
  events : List Event

/-- The error value of a syntax error of the decoder. -/
def syntaxError (line : Nat) (msg : String) : GoError :=
  .foreign "encoding/xml" ("XML syntax error on line " ++ toString line ++ ": " ++ msg)

/-- Characters an element name of the fragment may hold after the first. -/
def nameChar (c : Char) : Bool := c.isAlphanum || c = '_' || c = '-' || c = '.'

/-- An element name of the fragment: a letter or `_`, then name characters. -/
def validName : List Char → Bool
  | [] => false
  | c :: cs => (c.isAlpha || c = '_') && cs.all nameChar

/-- Character data with the five predefined entities replaced; `none` for any
other use of `&`. -/
def unescape : List Char → Option (List Char)
  | [] => some []
  | '&' :: 'a' :: 'm' :: 'p' :: ';' :: rest => (unescape rest).map (fun t => '&' :: t)
  | '&' :: 'l' :: 't' :: ';' :: rest => (unescape rest).map (fun t => '<' :: t)
  | '&' :: 'g' :: 't' :: ';' :: rest => (unescape rest).map (fun t => '>' :: t)
  | '&' :: 'q' :: 'u' :: 'o' :: 't' :: ';' :: rest => (unescape rest).map (fun t => '"' :: t)
  | '&' :: 'a' :: 'p' :: 'o' :: 's' :: ';' :: rest => (unescape rest).map (fun t => Char.ofNat 39 :: t)
  | '&' :: _ => none
  | c :: rest => (unescape rest).map (fun t => c :: t)

/-- A complete tag has been read. -/
def closeTag (st : Scan) : Except GoError Scan :=
  match st.buf.reverse with
  | '/' :: name =>
    match st.stack with
    | [] => .error (syntaxError st.line ("unexpected end element </" ++ String.mk name ++ ">"))
    | top :: below =>
      if name = [] then .error (syntaxError st.line "expected element name after </")
      else if !validName name then .error (.foreign "encoding/xml" "outside the fragment")
      else if top = String.mk name then
        .ok { st with stack := below, inTag := false, buf := [], done := decide (below = []) }
      else
        .error (syntaxError st.line
          ("element <" ++ top ++ "> closed by </" ++ String.mk name ++ ">"))
  | name =>
    if validName name then
      .ok { st with stack := String.mk name :: st.stack, inTag := false, buf := [],
                    events := .start (String.mk name :: st.stack).reverse :: st.events }
    else .error (.foreign "encoding/xml" "outside the fragment")

/-- One character of the document. -/
def scanStep (st : Scan) (c : Char) : Except GoError Scan :=
  if st.done then .ok st
  else if c = '\n' then .ok { st with line := st.line + 1, buf := c :: st.buf }
  else if c ≠ '\t' ∧ (c.toNat < 32 ∨ 127 ≤ c.toNat) then
    .error (.foreign "encoding/xml" "outside the fragment")
  else if st.inTag then
    if c = '>' then closeTag st
    else if c = '<' then
      .error (syntaxError st.line
        (if st.buf = [] then "expected element name after <"
         else "expected attribute name in element"))
    else .ok { st with buf := c :: st.buf }
  else if c = '<' then
    if st.stack = [] ∨ st.buf = [] then .ok { st with inTag := true, buf := [] }
    else
      match unescape st.buf.reverse with
      | none => .error (.foreign "encoding/xml" "outside the fragment")
      | some text =>
        .ok { st with inTag := true, buf := [],
                      events := .chars st.stack.reverse (String.mk text) :: st.events }
  else if c = '>' ∨ (c = '&' ∧ st.stack = []) then
    .error (.foreign "encoding/xml" "outside the fragment")
  else .ok { st with buf := c :: st.buf }

/-- The whole document: the decoder stops reading where the root element
closes; input that ends earlier is an error. -/
def scan : Scan → List Char → Except GoError (List Event)
  | st, [] =>
    if st.done then .ok st.events.reverse
    else if st.stack = [] ∧ !st.inTag then .error (.foreign "io" "EOF")
    else .error (syntaxError st.line "unexpected EOF")
  | st, c :: cs =>
    match scanStep st c with
    | .error e => .error e
    | .ok st1 => scan st1 cs

/-- The events of a document. -/
def events (body : Bytes) : Except GoError (List Event) :=
  scan { stack := [], inTag := false, buf := [], done := false, line := 1, events := [] }
    (charsOf body)

/-- One event, decoding into an `Error`: the children `exception` and
`message` of the root, whatever its name. -/
def errorStep (e : Error) : Event → Error
  | .start [_, "exception"] => { e with Exception := "" }
  | .start [_, "message"] => { e with Message := "" }
  | .chars [_, "exception"] t => { e with Exception := e.Exception ++ t }
  | .chars [_, "message"] t => { e with Message := e.Message ++ t }
  | _ => e

/-- The call `xml.Unmarshal(body, &Error{})` on the fragment. -/
def unmarshalError (body : Bytes) : Except GoError Error :=
  match events body with
  | .error e => .error e
  | .ok evs => .ok (evs.foldl errorStep { Exception := "", Message := "" })

/-- Blanks at both ends removed. -/
def trimSpace (cs : List Char) : List Char :=
  ((cs.dropWhile Char.isWhitespace).reverse.dropWhile Char.isWhitespace).reverse

/-- An unsigned 64-bit decimal with blanks around it; empty text leaves the
field at zero. -/
def parseUint (text : String) : Except GoError Nat :=
  let cs := trimSpace text.data
  if text = "" then .ok 0
  else if cs = [] ∨ !cs.all Char.isDigit then
    .error (.foreign "strconv" "ParseUint: invalid syntax")
  else
    let n := cs.foldl (fun acc c => 10 * acc + (c.toNat - 48)) 0
    if n < 2 ^ 64 then .ok n else .error (.foreign "strconv" "ParseUint: value out of range")

/-- A `ShareResult` whose numbers are still text. -/
structure RawShare where
  Status : String
  StatusCode : String
  Message : String
  Id : String
  Url : String
  Elements : List (String × String)

/-- Change the last entry of a list. -/
def mapLast {α : Type} (f : α → α) : List α → List α
  | [] => []
  | [x] => [f x]
  | x :: rest => x :: mapLast f rest

/-- One event, decoding into a `ShareResult`. -/
def shareStep (r : RawShare) : Event → RawShare
  | .start ["ocs", "meta", "status"] => { r with Status := "" }
  | .start ["ocs", "meta", "statuscode"] => { r with StatusCode := "" }
  | .start ["ocs", "meta", "message"] => { r with Message := "" }
  | .start ["ocs", "data", "id"] => { r with Id := "" }
  | .start ["ocs", "data", "url"] => { r with Url := "" }
  | .start ["ocs", "data", "element"] => { r with Elements := r.Elements ++ [("", "")] }
  | .start ["ocs", "data", "element", "id"] =>
    { r with Elements := mapLast (fun e => ("", e.2)) r.Elements }
  | .start ["ocs", "data", "element", "url"] =>
    { r with Elements := mapLast (fun e => (e.1, "")) r.Elements }
  | .chars ["ocs", "meta", "status"] t => { r with Status := r.Status ++ t }
  | .chars ["ocs", "meta", "statuscode"] t => { r with StatusCode := r.StatusCode ++ t }
  | .chars ["ocs", "meta", "message"] t => { r with Message := r.Message ++ t }
  | .chars ["ocs", "data", "id"] t => { r with Id := r.Id ++ t }
  | .chars ["ocs", "data", "url"] t => { r with Url := r.Url ++ t }
  | .chars ["ocs", "data", "element", "id"] t =>
    { r with Elements := mapLast (fun e => (e.1 ++ t, e.2)) r.Elements }
  | .chars ["ocs", "data", "element", "url"] t =>
    { r with Elements := mapLast (fun e => (e.1, e.2 ++ t)) r.Elements }
  | _ => r

/-- The numbers of the listed shares. -/
def parseElements : List (String × String) → Except GoError (List ShareElement)
  | [] => .ok []
  | (id, url) :: rest =>
    match parseUint id, parseElements rest with
    | .ok n, .ok tail => .ok ({ Id := n, Url := url } :: tail)
    | .error e, _ => .error e
    | _, .error e => .error e

/-- The call `xml.Unmarshal(body, &cloud.ShareResult{})` on the fragment: the
root element must be `ocs`. -/
def unmarshalShareResult (body : Bytes) : Except GoError ShareResult :=
  match events body with
  | .error e => .error e
  | .ok evs =>
    if evs.head? ≠ some (.start ["ocs"]) then
      .error (.foreign "encoding/xml" "expected element type <ocs>")
    else
      let r := evs.foldl shareStep
        { Status := "", StatusCode := "", Message := "", Id := "", Url := "", Elements := [] }
      match parseUint r.StatusCode, parseUint r.Id, parseElements r.Elements with
      | .ok code, .ok id, .ok elements =>
        .ok { Status := r.Status, StatusCode := code, Message := r.Message, Id := id,
              Url := r.Url, Elements := elements }
      | .error e, _, _ => .error e
      | _, .error e, _ => .error e
      | _, _, .error e => .error e

/-- The world of the reference library: the local files, the expansion of each
glob pattern, what the server stores under each URL, and the replies the
server is scripted to give next (when there are any, they come first). -/
structure World where
  files : List (String × Bytes)
  globs : List (String × List String)
  store : List (String × Bytes)
  replies : List Response

/-- The first entry under a key. -/
def lookup {α : Type} (key : String) : List (String × α) → Option α
  | [] => none
  | (k, v) :: rest => if k = key then some v else lookup key rest

/-- The server: a scripted reply if one is left; otherwise a PUT stores its
bytes under the URL and answers 201 with an empty body, a GET answers 200
with the bytes stored under the URL or 404 with an error document, and any
other verb answers 200 with an empty body. -/
def serve (w : World) (req : Request) : Except GoError Response × World :=
  match w.replies with
  | reply :: rest => (.ok reply, { w with replies := rest })
  | [] =>
    if req.Method = "PUT" then
      match req.Body with
      | .raw data => (.ok { StatusCode := 201, Body := .ok [] },
                      { w with store := (req.URL, data) :: w.store })
      | .text _ => (.ok { StatusCode := 200, Body := .ok [] }, w)
    else if req.Method = "GET" then
      match lookup req.URL w.store with
      | some data => (.ok { StatusCode := 200, Body := .ok data }, w)
      | none =>
        (.ok { StatusCode := 404, Body := .ok (bytesOf
          "<error><exception>NotFound</exception><message>File not found</message></error>") }, w)
    else (.ok { StatusCode := 200, Body := .ok [] }, w)

/-- The round trip: the transport refuses a URL without scheme or without
host; any other request reaches the server. -/
def Do (w : World) (req : Request) : Except GoError Response × World :=
  match urlParse req.URL with
  | .error err => (.error err, w)
  | .ok u =>
    if u.Scheme = "" then (.error (.foreign "net/http" "unsupported protocol scheme"), w)
    else if u.Host = "" then (.error (.foreign "net/http" "http: no Host in request URL"), w)
    else serve w req

/-- The reference library. -/
def refLib : Lib where
  URL := URL
  World := World
  urlParse := urlParse
  ResolveReference := ResolveReference
  urlString := urlString
  newRequestError := fun _ url =>
    match urlParse url with
    | .error e => some e
    | .ok _ => none
  Do := Do
  Glob := fun w pattern => .ok ((lookup pattern w.globs).getD [])
  ReadFile := fun w name =>
    match lookup name w.files with
    | some data => .ok data
    | none => .error (.foreign "os" "no such file or directory")
  unmarshalError := unmarshalError
  unmarshalShareResult := unmarshalShareResult

/-- The client of the repository's tests: `Dial("http://localhost:18080/", "admin", "password")`. -/
def testClient : Client refLib :=
  { Url := { Scheme := "http", Host := "localhost:18080", Path := "/" },
    Username := "admin", Password := "password" }

/-- A world with nothing in it. -/
def emptyWorld : World := { files := [], globs := [], store := [], replies := [] }

/-- A state with no request sent yet. -/
def start (w : World) : State refLib := { world := w, sent := [] }

/-- A world whose server answers the next request with status 200 and an error document. -/
def errorWorld : World :=
  { files := [], globs := [], store := [],
    replies := [{ StatusCode := 200, Body := .ok (bytesOf
      "<error><exception>Forbidden</exception><message>no access</message></error>") }] }

/-- A world whose server answers the next request with an OCS envelope of status code 100. -/
def okWorld : World :=
  { files := [], globs := [], store := [],
    replies := [{ StatusCode := 200, Body := .ok (bytesOf
      "<ocs><meta><status>ok</status><statuscode>100</statuscode></meta><data><id>7</id></data></ocs>") }] }

/-- A world whose server answers the next request with status 200 and an empty body. -/
def silentWorld : World :=
  { files := [], globs := [], store := [], replies := [{ StatusCode := 200, Body := .ok [] }] }

/-- The first reply of a share server: the new share has id 42. -/
def createdReply : Response :=
  { StatusCode := 200, Body := .ok (bytesOf
    "<ocs><meta><status>ok</status><statuscode>200</statuscode></meta><data><id>42</id></data></ocs>") }

/-- The second reply of a share server: the share with its link. -/
def updatedReply : Response :=
  { StatusCode := 200, Body := .ok (bytesOf
    "<ocs><meta><status>ok</status><statuscode>200</statuscode></meta><data><id>42</id><url>http://localhost:18080/s/abc</url></data></ocs>") }

/-- A world whose server creates a share and then updates it. -/
def shareWorld : World :=
  { files := [], globs := [], store := [], replies := [createdReply, updatedReply] }

/-- A world with two local files under `d`, matched by the pattern `d/*`. -/
def dirWorld : World :=
  { files := [("d/a.txt", bytesOf "A"), ("d/b.txt", bytesOf "B")],
    globs := [("d/*", ["d/a.txt", "d/b.txt"])], store := [], replies := [] }

/-- A world whose server answers the next request with an OCS envelope of status code 404. -/
def failureWorld : World :=
  { files := [], globs := [], store := [],
    replies := [{ StatusCode := 200, Body := .ok (bytesOf
      "<ocs><meta><status>failure</status><statuscode>404</statuscode><message>not found</message></meta><data></data></ocs>") }] }

/-- A world where the pattern `d/*` also matches a file that cannot be read. -/
def gapWorld : World :=
  { files := [("d/a.txt", bytesOf "A"), ("d/b.txt", bytesOf "B")],
    globs := [("d/*", ["d/a.txt", "d/missing.txt", "d/b.txt"])], store := [], replies := [] }

end Ref

/-! ## Lemmas -/

/-- The method `sendWebDavRequest` is the composition of its steps. -/
theorem sendWebDavRequest_eq (L : Lib) (c : Client L) (request path : String) (data : Bytes)
    (s : State L) :
    sendWebDavRequest L c request path data s
      = sendVia L (buildRequest L c "remote.php/webdav" [] request path (.raw data)) (davOutcome L) s := by
  unfold sendWebDavRequest sendVia buildRequest NewRequest exchange clientDo
  dsimp only
  cases hp : L.urlParse (filepathJoin ["remote.php/webdav", path]) with
  | error e => rfl
  | ok u =>
    cases hn : L.newRequestError request (L.urlString (L.ResolveReference c.Url u)) with
    | some e => simp [hn]
    | none =>
      simp only [hn, Request.SetBasicAuth]
      rcases hd : L.Do s.world _ with ⟨r, w1⟩
      cases r with
      | error e => simp [hd]
      | ok resp =>
        simp only [hd]
        cases hb : resp.Body with
        | error e => simp [hb]
        | ok body =>
          simp only [hb]
          cases body with
          | nil => simp [davOutcome]
          | cons b rest =>
            by_cases hlt : b = 0x3C
            · subst hlt
              cases hu : L.unmarshalError (0x3C :: rest) with
              | error e => simp [davOutcome, hu]
              | ok re => by_cases hx : re.Exception = "" <;> simp [davOutcome, hu, hx]
            · simp [davOutcome, hlt]

/-- The method `sendAppsRequest` is the composition of its steps. -/
theorem sendAppsRequest_eq (L : Lib) (c : Client L) (request path data : String) (s : State L) :
    sendAppsRequest L c request path data s
      = sendVia L (buildRequest L c "apps" ocsHeader request path (.text data)) (shareOutcome L 100) s := by
  unfold sendAppsRequest sendVia buildRequest NewRequest exchange clientDo
  dsimp only
  cases hp : L.urlParse (filepathJoin ["apps", path]) with
  | error e => rfl
  | ok u =>
    cases hn : L.newRequestError request (L.urlString (L.ResolveReference c.Url u)) with
    | some e => simp [hn]
    | none =>
      simp only [hn, Request.SetBasicAuth, Request.HeaderAdd, ocsHeader, List.nil_append,
        List.singleton_append]
      rcases hd : L.Do s.world _ with ⟨r, w1⟩
      cases r with
      | error e => simp [hd]
      | ok resp =>
        simp only [hd]
        cases hb : resp.Body with
        | error e => simp [hb]
        | ok body =>
          simp only [hb]
          cases hu : L.unmarshalShareResult body with
          | error e => simp [shareOutcome, hu]
          | ok r => by_cases hx : r.StatusCode = 100 <;> simp [shareOutcome, hu, hx, apiError]

/-- The method `sendOCSRequest` is the composition of its steps. -/
theorem sendOCSRequest_eq (L : Lib) (c : Client L) (request path data : String) (s : State L) :
    sendOCSRequest L c request path data s
      = sendVia L (buildRequest L c "ocs/v2.php/apps/files_sharing/api/v1" ocsHeader request path
          (.text data)) (shareOutcome L 200) s := by
  unfold sendOCSRequest sendVia buildRequest NewRequest exchange clientDo
  dsimp only
  cases hp : L.urlParse (filepathJoin ["ocs/v2.php/apps/files_sharing/api/v1", path]) with
  | error e => rfl
  | ok u =>
    cases hn : L.newRequestError request (L.urlString (L.ResolveReference c.Url u)) with
    | some e => simp [hn]
    | none =>
      simp only [hn, Request.SetBasicAuth, Request.HeaderAdd, ocsHeader, List.nil_append,
        List.singleton_append]
      rcases hd : L.Do s.world _ with ⟨r, w1⟩
      cases r with
      | error e => simp [hd]
      | ok resp =>
        simp only [hd]
        cases hb : resp.Body with
        | error e => simp [hb]
        | ok body =>
          simp only [hb]
          cases hu : L.unmarshalShareResult body with
          | error e => simp [shareOutcome, hu]
          | ok r => by_cases hx : r.StatusCode = 200 <;> simp [shareOutcome, hu, hx, apiError]

/-- A send method whose request is built and answered returns what it makes of the body. -/
theorem sendVia_ok {α : Type} (L : Lib) (built : Except GoError Request) (outcome : Bytes → Ret α)
    (s : State L) (req : Request) (resp : Response) (w1 : L.World) (body : Bytes)
    (hreq : built = .ok req) (hdo : L.Do s.world req = (.ok resp, w1))
    (hbody : resp.Body = .ok body) :
    sendVia L built outcome s = (outcome body, { world := w1, sent := s.sent ++ [req] }) := by
  subst hreq
  simp [sendVia, exchange, hdo, hbody]

/-- The requests on record after a send method: the one it built, if it built one. -/
theorem sendVia_sent {α : Type} (L : Lib) (built : Except GoError Request) (outcome : Bytes → Ret α)
    (s : State L) :
    (sendVia L built outcome s).2.sent
      = match built with
        | .error _ => s.sent
        | .ok req => s.sent ++ [req] := by
  cases built with
  | error e => rfl
  | ok req =>
    simp only [sendVia, exchange]
    rcases hd : L.Do s.world req with ⟨r, w1⟩
    cases r with
    | error e => rfl
    | ok resp =>
      dsimp only
      cases hb : resp.Body <;> rfl

/-- Every WebDAV operation is one call of `sendWebDavRequest`. -/
theorem DavOp.dav_run_eq (L : Lib) (c : Client L) (op : DavOp) (path : String) (s : State L) :
    op.run L c path s
      = (op.returns (sendWebDavRequest L c op.verb path op.data s).1,
         (sendWebDavRequest L c op.verb path op.data s).2) := by
  cases op <;> rfl

/-- Every Apps or Share operation is one call of its send method. -/
theorem ApiOp.api_run_eq (L : Lib) (c : Client L) (op : ApiOp) (s : State L) :
    op.run L c s
      = sendVia L (buildRequest L c op.root ocsHeader op.verb op.path (.text op.data))
          (shareOutcome L op.want) s := by
  cases op
  case CreateGroupFolder m => exact sendAppsRequest_eq L c _ _ _ s
  case AddGroupToGroupFolder g f => exact sendAppsRequest_eq L c _ _ _ s
  case SetGroupPermissionsForGroupFolder p g f => exact sendAppsRequest_eq L c _ _ _ s
  case CreateShare p t u q => exact sendOCSRequest_eq L c _ _ _ s
  case GetShare p => exact sendOCSRequest_eq L c _ _ _ s
  case DeleteShare i => exact sendOCSRequest_eq L c _ _ _ s

/-- A send method whose request is built: what it returns, by the transport's answer. -/
theorem sendVia_do {α : Type} (L : Lib) (built : Except GoError Request) (outcome : Bytes → Ret α)
    (s : State L) (req : Request) (r1 : Except GoError Response) (w1 : L.World)
    (hreq : built = .ok req) (hdo : L.Do s.world req = (r1, w1)) :
    sendVia L built outcome s
      = (match r1 with
         | .error err => (none, some err)
         | .ok resp =>
           match resp.Body with
           | .error err => (none, some err)
           | .ok body => outcome body,
         { world := w1, sent := s.sent ++ [req] }) := by
  subst hreq
  cases r1 with
  | error e => simp [sendVia, exchange, hdo]
  | ok resp => cases hb : resp.Body <;> simp [sendVia, exchange, hdo, hb]

/-- What `sendOCSRequest` returns is an error or a result, never neither. -/
theorem sendOCSRequest_result (L : Lib) (c : Client L) (request path data : String) (s : State L) :
    (∃ err, (sendOCSRequest L c request path data s).1 = (none, some err)) ∨
    (∃ result, (sendOCSRequest L c request path data s).1 = (some result, none)) := by
  rw [sendOCSRequest_eq]
  cases hb : buildRequest L c "ocs/v2.php/apps/files_sharing/api/v1" ocsHeader request path
      (.text data) with
  | error e => exact Or.inl ⟨e, rfl⟩
  | ok req =>
    rcases hd : L.Do s.world req with ⟨r1, w1⟩
    cases r1 with
    | error e =>
      rw [sendVia_do L _ _ s req _ w1 rfl hd]
      exact Or.inl ⟨e, rfl⟩
    | ok resp =>
      rw [sendVia_do L _ _ s req _ w1 rfl hd]
      cases hbody : resp.Body with
      | error e => exact Or.inl ⟨e, by simp [hbody]⟩
      | ok body =>
        cases hu : L.unmarshalShareResult body with
        | error e => exact Or.inl ⟨e, by simp [hbody, shareOutcome, hu]⟩
        | ok result =>
          by_cases hc : result.StatusCode = 200
          · exact Or.inr ⟨result, by simp [hbody, shareOutcome, hu, hc]⟩
          · exact Or.inl ⟨apiError result.StatusCode, by simp [hbody, shareOutcome, hu, hc]⟩

/-- The form data of the `CreateShare` call of the composite operations. -/
theorem createShare_data (path : String) :
    "path=" ++ path ++ "&shareType=" ++ fmtInt 3 ++ "&publicUpload=" ++ "true" ++ "&permissions="
        ++ fmtInt 4
      = "path=" ++ path ++ "&shareType=3&publicUpload=true&permissions=4" := by
  have h : "&shareType=" ++ fmtInt 3 ++ "&publicUpload=" ++ "true" ++ "&permissions=" ++ fmtInt 4
      = "&shareType=3&publicUpload=true&permissions=4" := by decide
  rw [← h]
  simp only [String.append_assoc]

/-- A composite operation is its `CreateShare` step followed by the follow-up request. -/
theorem compositeShare_eq (L : Lib) (c : Client L) (drop : Bool) (path : String) (s : State L) :
    compositeShare L c drop path s
      = match sendOCSRequest L c "POST" "shares"
            ("path=" ++ path ++ "&shareType=3&publicUpload=true&permissions=4") s with
        | ((_, some err), s1) => ((none, some err), s1)
        | ((none, none), s1) => ((none, none), s1)
        | ((some result, none), s1) =>
          sendOCSRequest L c "PUT" ("shares/" ++ fmtUint result.Id) (narrowed drop) s1 := by
  cases drop <;>
    simp only [compositeShare, CreateFileDropShare, CreateReadOnlyShare, CreateShare,
      createShare_data, narrowed]

/-- The path functions on the cases of Go's own documentation and tests. -/
theorem filepath_samples :
    filepathClean "abc//def//ghi" = "abc/def/ghi" ∧
    filepathClean "abc/def/../ghi/../jkl" = "abc/jkl" ∧
    filepathClean "abc/./../def" = "def" ∧
    filepathClean "abc/../../././../def" = "../../def" ∧
    filepathClean "/../abc" = "/abc" ∧
    filepathClean "../../abc" = "../../abc" ∧
    filepathClean "abc/" = "abc" ∧
    filepathClean "/" = "/" ∧
    filepathClean "" = "." ∧
    filepathJoin ["a", "b"] = "a/b" ∧
    filepathJoin ["a", ""] = "a" ∧
    filepathJoin ["", "b"] = "b" ∧
    filepathJoin ["/", "a"] = "/a" ∧
    filepathJoin ["a/", "b"] = "a/b" ∧
    filepathJoin ["", ""] = "" ∧
    filepathBase "" = "." ∧
    filepathBase "/" = "/" ∧
    filepathBase "////" = "/" ∧
    filepathBase "x/" = "x" ∧
    filepathBase "abc/def" = "def" ∧
    filepathBase "a/b/.x" = ".x" ∧
    filepathJoin ["Test/Folder/", filepathBase "test/testdata/Folder/test.txt"]
      = "Test/Folder/test.txt" ∧
    fmtUint 120 = "120" ∧ fmtInt (-31) = "-31" := by
  decide

/-- A path has at least one element. -/
theorem splitSlash_ne_nil (cs : List Char) : splitSlash cs ≠ [] := by
  cases cs with
  | nil => simp [splitSlash]
  | cons c rest =>
    simp only [splitSlash]
    cases splitSlash rest with
    | nil => simp
    | cons seg more => by_cases h : c = '/' <;> simp [h]

/-- The elements of two paths put together with a slash. -/
theorem splitSlash_append (a b : List Char) :
    splitSlash (a ++ '/' :: b) = splitSlash a ++ splitSlash b := by
  induction a with
  | nil =>
    have hb := splitSlash_ne_nil b
    cases hs : splitSlash b with
    | nil => exact absurd hs hb
    | cons seg more => simp [splitSlash, hs]
  | cons c rest ih =>
    have ha := splitSlash_ne_nil rest
    cases hs : splitSlash rest with
    | nil => exact absurd hs ha
    | cons seg more =>
      rw [List.cons_append]
      simp only [splitSlash]
      rw [ih, hs]
      by_cases h : c = '/' <;> simp [h]

/-- Joining the elements of a path gives the path back. -/
theorem joinSlash_splitSlash (cs : List Char) : joinSlash (splitSlash cs) = cs := by
  induction cs with
  | nil => rfl
  | cons c rest ih =>
    have ha := splitSlash_ne_nil rest
    cases hs : splitSlash rest with
    | nil => exact absurd hs ha
    | cons seg more =>
      rw [hs] at ih
      simp only [splitSlash, hs]
      by_cases h : c = '/'
      · subst h
        simp [joinSlash, ih]
      · simp only [h, if_false]
        cases more with
        | nil =>
          simp only [joinSlash] at ih ⊢
          rw [ih]
        | cons seg2 more2 =>
          simp only [joinSlash] at ih ⊢
          rw [← ih]
          simp

/-- Cleaning keeps every element of a clean path. -/
theorem foldl_cleanStep (rooted : Bool) (segs stack : List (List Char))
    (h : ∀ seg ∈ segs, seg ≠ [] ∧ seg ≠ ['.'] ∧ seg ≠ ['.', '.']) :
    segs.foldl (cleanStep rooted) stack = segs.reverse ++ stack := by
  induction segs generalizing stack with
  | nil => rfl
  | cons seg rest ih =>
    have hseg := h seg (List.mem_cons_self _ _)
    have hrest : ∀ x ∈ rest, x ≠ [] ∧ x ≠ ['.'] ∧ x ≠ ['.', '.'] :=
      fun x hx => h x (List.mem_cons_of_mem _ hx)
    rw [List.foldl_cons, ih _ hrest]
    simp [cleanStep, hseg.1, hseg.2.1, hseg.2.2]

/-- The function `filepath.Clean` returns a clean relative path as it is. -/
theorem filepathClean_of_cleanRel (path : String) (h : CleanRel path) :
    filepathClean path = path := by
  unfold filepathClean
  cases hd : path.data with
  | nil =>
    exfalso
    have := h [] (by simp [hd, splitSlash])
    exact this.1 rfl
  | cons c cs =>
    have hc : c ≠ '/' := by
      intro hc
      subst hc
      have hne := splitSlash_ne_nil cs
      cases hs : splitSlash cs with
      | nil => exact absurd hs hne
      | cons seg more =>
        have := h [] (by simp [hd, splitSlash, hs])
        exact this.1 rfl
    have hall : ∀ seg ∈ splitSlash (c :: cs), seg ≠ [] ∧ seg ≠ ['.'] ∧ seg ≠ ['.', '.'] := by
      intro seg hseg
      exact h seg (by rw [hd]; exact hseg)
    simp only [foldl_cleanStep _ _ _ hall, hc, decide_False, List.append_nil, List.reverse_reverse,
      joinSlash_splitSlash, Bool.false_eq_true, if_false, List.nil_append]
    simp only [reduceCtorEq, if_false]
    rw [← hd]

/-- Joining a clean relative path to the WebDAV root only puts the root before it. -/
theorem webdav_join_clean (path : String) (h : CleanRel path) :
    filepathJoin ["remote.php/webdav", path] = "remote.php/webdav/" ++ path := by
  have hjoin : filepathJoin ["remote.php/webdav", path]
      = filepathClean ("remote.php/webdav/" ++ path) := by
    have h0 : ("remote.php/webdav" : String) ≠ "" := by decide
    have h1 : ("remote.php/webdav" : String) ++ "/" = "remote.php/webdav/" := by decide
    simp only [filepathJoin, h0, if_false, stringsJoinSlash, h1]
  rw [hjoin]
  apply filepathClean_of_cleanRel
  intro seg hseg
  have hdata : ("remote.php/webdav/" ++ path).data
      = "remote.php/webdav".data ++ '/' :: path.data := by
    rw [String.data_append]
    rfl
  rw [hdata, splitSlash_append, List.mem_append] at hseg
  rcases hseg with hseg | hseg
  · have hroot : splitSlash "remote.php/webdav".data
        = ["remote.php".data, "webdav".data] := by decide
    rw [hroot] at hseg
    simp only [List.mem_cons, List.mem_singleton, List.not_mem_nil, or_false] at hseg
    rcases hseg with rfl | rfl <;> decide
  · exact h seg hseg

/-- Two clean relative paths put together with a slash are a clean relative path. -/
theorem cleanRel_join (a b : String) (ha : CleanRel a) (hb : CleanRel b) :
    CleanRel (a ++ "/" ++ b) := by
  intro seg hseg
  have hdata : (a ++ "/" ++ b).data = a.data ++ '/' :: b.data := by
    simp only [String.data_append]
    simp
  rw [hdata, splitSlash_append, List.mem_append] at hseg
  rcases hseg with hseg | hseg
  · exact ha seg hseg
  · exact hb seg hseg

/-- A clean relative path is not empty and does not start with a slash. -/
theorem cleanRel_head (path : String) (h : CleanRel path) :
    ∃ c cs, path.data = c :: cs ∧ c ≠ '/' := by
  cases hd : path.data with
  | nil =>
    exfalso
    have := h [] (by simp [hd, splitSlash])
    exact this.1 rfl
  | cons c cs =>
    refine ⟨c, cs, rfl, ?_⟩
    intro hc
    subst hc
    have hne := splitSlash_ne_nil cs
    cases hs : splitSlash cs with
    | nil => exact absurd hs hne
    | cons seg more =>
      have := h [] (by simp [hd, splitSlash, hs])
      exact this.1 rfl

/-- Cleaning drops the empty elements of a path without `.` and `..`. -/
theorem foldl_cleanStep_skip (rooted : Bool) (segs stack : List (List Char))
    (h : ∀ seg ∈ segs, seg ≠ ['.'] ∧ seg ≠ ['.', '.']) :
    segs.foldl (cleanStep rooted) stack
      = (segs.filter (fun seg => decide (seg ≠ []))).reverse ++ stack := by
  induction segs generalizing stack with
  | nil => rfl
  | cons seg rest ih =>
    have hseg := h seg (List.mem_cons_self _ _)
    have hrest : ∀ x ∈ rest, x ≠ ['.'] ∧ x ≠ ['.', '.'] :=
      fun x hx => h x (List.mem_cons_of_mem _ hx)
    rw [List.foldl_cons, ih _ hrest]
    by_cases he : seg = []
    · simp [cleanStep, he]
    · simp [cleanStep, he, hseg.1, hseg.2]

/-- Joining a clean relative path to a clean relative directory, written
with or without a slash at its end, puts one slash between them. -/
theorem filepathJoin_dir (d b : String) (hd : CleanRel d) (hb : CleanRel b) :
    filepathJoin [d, b] = d ++ "/" ++ b ∧ filepathJoin [d ++ "/", b] = d ++ "/" ++ b := by
  obtain ⟨c, cs, hdata, hc⟩ := cleanRel_head d hd
  have hdne : d ≠ "" := by
    intro h
    rw [h] at hdata
    simp at hdata
  have hdsne : d ++ "/" ≠ "" := by
    intro h
    have := congrArg String.data h
    simp [String.data_append, hdata] at this
  constructor
  · simp only [filepathJoin, hdne, if_false, stringsJoinSlash]
    exact filepathClean_of_cleanRel _ (cleanRel_join d b hd hb)
  · simp only [filepathJoin, hdsne, if_false, stringsJoinSlash]
    have hP : (d ++ "/" ++ "/" ++ b).data = c :: (cs ++ '/' :: '/' :: b.data) := by
      simp only [String.data_append, hdata]
      simp
    have hsplit : splitSlash (c :: (cs ++ '/' :: '/' :: b.data))
        = splitSlash d.data ++ [] :: splitSlash b.data := by
      have h1 : c :: (cs ++ '/' :: '/' :: b.data) = d.data ++ '/' :: ([] ++ '/' :: b.data) := by
        simp [hdata]
      rw [h1, splitSlash_append, splitSlash_append]
      simp [splitSlash]
    have hall : ∀ seg ∈ splitSlash d.data ++ [] :: splitSlash b.data,
        seg ≠ ['.'] ∧ seg ≠ ['.', '.'] := by
      intro seg hseg
      rcases List.mem_append.1 hseg with h | h
      · exact (hd seg h).2
      · rcases List.mem_cons.1 h with rfl | h
        · exact ⟨by simp, by simp⟩
        · exact (hb seg h).2
    have hfd : (splitSlash d.data).filter (fun seg => decide (seg ≠ [])) = splitSlash d.data :=
      List.filter_eq_self.2 (fun seg hseg => by simpa using (hd seg hseg).1)
    have hfb : (splitSlash b.data).filter (fun seg => decide (seg ≠ [])) = splitSlash b.data :=
      List.filter_eq_self.2 (fun seg hseg => by simpa using (hb seg hseg).1)
    have hkept : ((splitSlash (c :: (cs ++ '/' :: '/' :: b.data))).foldl (cleanStep false) []).reverse
        = splitSlash (d.data ++ '/' :: b.data) := by
      rw [hsplit, foldl_cleanStep_skip _ _ _ hall, List.append_nil, List.reverse_reverse,
        List.filter_append, hfd, splitSlash_append]
      simp [hfb]
      exact fun a ha => (hb a ha).1
    unfold filepathClean
    rw [hP]
    simp only [hc, decide_False, Bool.false_eq_true, if_false, List.nil_append, hkept,
      joinSlash_splitSlash]
    have hne : d.data ++ '/' :: b.data ≠ [] := by simp
    simp only [hne, if_false]
    apply String.ext
    simp [String.data_append]

/-- The base name of a path that ends in a non-empty element is that element. -/
theorem filepathBase_of_name (dir name : String) (hne : name ≠ "")
    (hns : ∀ c ∈ name.data, c ≠ '/') :
    filepathBase (dir ++ "/" ++ name) = name ∧ filepathBase name = name := by
  have takeWhile_stop : ∀ (xs rest : List Char), (∀ x ∈ xs, x ≠ '/') →
      (xs ++ '/' :: rest).takeWhile (fun c => decide (c ≠ '/')) = xs := by
    intro xs rest hxs
    induction xs with
    | nil => simp
    | cons x more ih =>
      have hx := hxs x (List.mem_cons_self _ _)
      simp only [List.cons_append, List.takeWhile_cons, hx, ne_eq, not_false_eq_true,
        decide_True, if_true]
      rw [ih (fun y hy => hxs y (List.mem_cons_of_mem _ hy))]
  have takeWhile_all : ∀ (xs : List Char), (∀ x ∈ xs, x ≠ '/') →
      xs.takeWhile (fun c => decide (c ≠ '/')) = xs := by
    intro xs hxs
    induction xs with
    | nil => rfl
    | cons x more ih =>
      have hx := hxs x (List.mem_cons_self _ _)
      simp only [List.takeWhile_cons, hx, ne_eq, not_false_eq_true, decide_True, if_true]
      rw [ih (fun y hy => hxs y (List.mem_cons_of_mem _ hy))]
  have hdata : name.data ≠ [] := by
    intro h
    apply hne
    apply String.ext
    simpa using h
  have hrev : ∀ x ∈ name.data.reverse, x ≠ '/' := fun x hx => hns x (List.mem_reverse.1 hx)
  obtain ⟨x, xs, hx⟩ : ∃ x xs, name.data.reverse = x :: xs := by
    cases h : name.data.reverse with
    | nil => exact absurd (List.reverse_eq_nil_iff.1 h) hdata
    | cons x xs => exact ⟨x, xs, rfl⟩
  have hxne : x ≠ '/' := hrev x (by rw [hx]; exact List.mem_cons_self _ _)
  constructor
  · have hpne : dir ++ "/" ++ name ≠ "" := by
      intro h
      have := congrArg String.data h
      simp [String.data_append] at this
    have hp : (dir ++ "/" ++ name).data.reverse = name.data.reverse ++ '/' :: dir.data.reverse := by
      simp [String.data_append]
    simp only [filepathBase, hpne, if_false, hp]
    have hdrop : dropSlashes (name.data.reverse ++ '/' :: dir.data.reverse)
        = name.data.reverse ++ '/' :: dir.data.reverse := by
      rw [hx]
      simp [dropSlashes, hxne]
    rw [hdrop, takeWhile_stop _ _ hrev, List.reverse_reverse]
    simp only [hdata, if_false]
  · simp only [filepathBase, hne, if_false]
    have hdrop : dropSlashes name.data.reverse = name.data.reverse := by
      rw [hx]
      simp [dropSlashes, hxne]
    rw [hdrop, takeWhile_all _ hrev, List.reverse_reverse]
    simp only [hdata, if_false]

/-- No operation has an empty verb. -/
theorem DavOp.verb_ne_empty (op : DavOp) : op.verb ≠ "" := by
  cases op <;> simp [DavOp.verb]

/-- The requests on record after a WebDAV operation. -/
theorem DavOp.run_sent (L : Lib) (c : Client L) (op : DavOp) (path : String) (s : State L) :
    (op.run L c path s).2.sent
      = match buildRequest L c "remote.php/webdav" [] op.verb path (.raw op.data) with
        | .error _ => s.sent
        | .ok req => s.sent ++ [req] := by
  rw [DavOp.dav_run_eq, sendWebDavRequest_eq, sendVia_sent]

/-- The ten digit characters and their values. -/
theorem digitChar_digit (k : Nat) (h : k < 10) :
    (Nat.digitChar k).toNat - 48 = k ∧ (Nat.digitChar k).isDigit = true := by
  interval_cases k <;> decide

/-- Reading back the digits `toDigitsCore` writes in front of `ds` gives the number. -/
theorem toDigitsCore_value (fuel n : Nat) (ds : List Char) (h : n < fuel) :
    (Nat.toDigitsCore 10 fuel n ds).foldl (fun acc c => 10 * acc + (c.toNat - 48)) 0
      = ds.foldl (fun acc c => 10 * acc + (c.toNat - 48)) n := by
  induction fuel generalizing n ds with
  | zero => omega
  | succ fuel ih =>
    have hd := (digitChar_digit (n % 10) (Nat.mod_lt n (by decide))).1
    simp only [Nat.toDigitsCore]
    by_cases h0 : n / 10 = 0
    · simp only [h0, if_true, List.foldl_cons, hd]
      have : n % 10 = n := by omega
      simp [this]
    · simp only [h0, if_false]
      rw [ih (n / 10) _ (by omega), List.foldl_cons, hd]
      have : 10 * (n / 10) + n % 10 = n := by omega
      rw [this]

/-- The characters `toDigitsCore` writes are digits. -/
theorem toDigitsCore_digits (fuel n : Nat) (ds : List Char)
    (h : ∀ c ∈ ds, c.isDigit = true) :
    ∀ c ∈ Nat.toDigitsCore 10 fuel n ds, c.isDigit = true := by
  induction fuel generalizing n ds with
  | zero => simpa [Nat.toDigitsCore] using h
  | succ fuel ih =>
    have hd := (digitChar_digit (n % 10) (Nat.mod_lt n (by decide))).2
    have hcons : ∀ c ∈ Nat.digitChar (n % 10) :: ds, c.isDigit = true := by
      intro c hc
      rcases List.mem_cons.1 hc with rfl | hc
      · exact hd
      · exact h c hc
    simp only [Nat.toDigitsCore]
    by_cases h0 : n / 10 = 0
    · simpa only [h0, if_true] using hcons
    · simp only [h0, if_false]
      exact ih (n / 10) _ hcons

/-- Digits written in front of a non-empty text leave it non-empty. -/
theorem toDigitsCore_ne_nil (fuel n : Nat) (ds : List Char) (h : ds ≠ []) :
    Nat.toDigitsCore 10 fuel n ds ≠ [] := by
  induction fuel generalizing n ds with
  | zero => simpa [Nat.toDigitsCore] using h
  | succ fuel ih =>
    simp only [Nat.toDigitsCore]
    by_cases h0 : n / 10 = 0
    · simp [h0]
    · simp only [h0, if_false]
      exact ih (n / 10) _ (by simp)

/-- The verb `%d` writes a number as its decimal numeral: digits only, at
least one, and reading them back gives the number. -/
theorem fmtUint_decimal (n : Nat) :
    decimalValue (fmtUint n) = n ∧ (fmtUint n).data.all Char.isDigit = true ∧ fmtUint n ≠ "" := by
  have hdata : (fmtUint n).data = Nat.toDigitsCore 10 (n + 1) n [] := rfl
  have hval : decimalValue (fmtUint n) = n := by
    simp only [decimalValue, hdata]
    rw [toDigitsCore_value (n + 1) n [] (by omega)]
    rfl
  refine ⟨hval, ?_, ?_⟩
  · rw [hdata, List.all_eq_true]
    exact toDigitsCore_digits (n + 1) n [] (by simp)
  · intro hempty
    have h1 : (fmtUint n).data ≠ [] := by
      rw [hdata]
      simp only [Nat.toDigitsCore]
      by_cases h0 : n / 10 = 0
      · simp [h0]
      · simp only [h0, if_false]
        exact toDigitsCore_ne_nil n (n / 10) _ (by simp)
    exact h1 (by rw [hempty])

/-- A successful `Upload` built its PUT request and sent exactly that one. -/
theorem Upload_ok_sent (L : Lib) (c : Client L) (src : Bytes) (dest : String) (s s1 : State L)
    (h : Upload L c src dest s = (none, s1)) :
    ∃ req, buildRequest L c "remote.php/webdav" [] "PUT" dest (.raw src) = .ok req ∧
      s1.sent = s.sent ++ [req] := by
  have hs : s1 = (sendWebDavRequest L c "PUT" dest src s).2 := by
    have := congrArg Prod.snd h
    simpa [Upload] using this.symm
  have he : (sendWebDavRequest L c "PUT" dest src s).1.2 = none := by
    have := congrArg Prod.fst h
    simpa [Upload] using this
  rw [sendWebDavRequest_eq] at hs he
  cases hb : buildRequest L c "remote.php/webdav" [] "PUT" dest (.raw src) with
  | error e =>
    rw [hb] at he
    simp [sendVia] at he
  | ok req =>
    refine ⟨req, rfl, ?_⟩
    rw [hs, sendVia_sent, hb]

/-- When every file reads and uploads, the loop ends without error after one PUT per file. -/
theorem uploadFiles_all (L : Lib) (c : Client L) (dest : String) (files : List String)
    (datas : List Bytes) (s s2 : State L) (h : UploadedAll L c dest files datas s s2) :
    uploadFiles L c dest files s = (none, s2) ∧
    ∃ reqs, s2.sent = s.sent ++ reqs ∧
      List.Forall₂ (fun (fd : String × Bytes) (req : Request) =>
        buildRequest L c "remote.php/webdav" [] "PUT" (filepathJoin [dest, filepathBase fd.1])
          (.raw fd.2) = .ok req) (files.zip datas) reqs := by
  induction h with
  | nil s => exact ⟨rfl, [], by simp, List.Forall₂.nil⟩
  | cons file rest data datas s s1 s2 hread hup _ ih =>
    obtain ⟨hloop, reqs, hsent, hall⟩ := ih
    obtain ⟨req, hreq, hs1⟩ := Upload_ok_sent L c data _ s s1 hup
    refine ⟨?_, req :: reqs, ?_, ?_⟩
    · simp only [uploadFiles, hread, hup, hloop]
    · rw [hsent, hs1]
      simp
    · exact List.Forall₂.cons hreq hall

/-- One content is read per file. -/
theorem UploadedAll_length (L : Lib) (c : Client L) (dest : String) (files : List String)
    (datas : List Bytes) (s s2 : State L) (h : UploadedAll L c dest files datas s s2) :
    datas.length = files.length := by
  induction h with
  | nil s => rfl
  | cons file rest data datas s s1 s2 _ _ _ ih => simp [ih]

/-- After the files that read and upload, the loop goes on with the rest. -/
theorem uploadFiles_append (L : Lib) (c : Client L) (dest : String) (done rest : List String)
    (datas : List Bytes) (s s1 : State L) (h : UploadedAll L c dest done datas s s1) :
    uploadFiles L c dest (done ++ rest) s = uploadFiles L c dest rest s1 := by
  induction h with
  | nil s => rfl
  | cons file more data datas s s1 s2 hread hup _ ih =>
    simp only [List.cons_append, uploadFiles, hread, hup]
    exact ih

/-- The loop stops at a file whose read or upload fails. -/
theorem uploadFiles_fails (L : Lib) (c : Client L) (dest file : String) (rest : List String)
    (s s2 : State L) (err : GoError) (h : FailsAt L c dest file s err s2) :
    uploadFiles L c dest (file :: rest) s = (some err, s2) := by
  rcases h with ⟨hread, rfl⟩ | ⟨data, hread, hup⟩
  · simp only [uploadFiles, hread]
  · simp only [uploadFiles, hread, hup]

/-! ## Theorems -/

/-- C1: after a successful round trip with response body `body`, whatever the
status code: an empty body or one not starting with `<` makes the operation
succeed with the body as payload; a body starting with `<` that fails to
decode makes it fail with the decode error; one that decodes with a non-empty
exception makes it fail with the `*Error` holding the decoded exception and
message; one that decodes with an empty exception makes it succeed with the
body as payload. -/
theorem webdav_response_handling (L : Lib) (c : Client L) (op : DavOp) (path : String)
    (s : State L) (req : Request) (resp : Response) (w1 : L.World) (body : Bytes)
    (hreq : buildRequest L c "remote.php/webdav" [] op.verb path (.raw op.data) = .ok req)
    (hdo : L.Do s.world req = (.ok resp, w1))
    (hbody : resp.Body = .ok body) :
    ((body = [] ∨ body.head? ≠ some 0x3C) →
      (op.run L c path s).1 = op.returns (some body, none)) ∧
    (∀ decodeErr, body.head? = some 0x3C → L.unmarshalError body = .error decodeErr →
      (op.run L c path s).1 = op.returns (some body, some decodeErr)) ∧
    (∀ reqErr, body.head? = some 0x3C → L.unmarshalError body = .ok reqErr →
      reqErr.Exception ≠ "" →
      (op.run L c path s).1
        = op.returns (none, some (.remote { Exception := reqErr.Exception, Message := reqErr.Message }))) ∧
    (∀ reqErr, body.head? = some 0x3C → L.unmarshalError body = .ok reqErr →
      reqErr.Exception = "" →
      (op.run L c path s).1 = op.returns (some body, none)) := by
  have hrun : (op.run L c path s).1 = op.returns (davOutcome L body) := by
    rw [DavOp.dav_run_eq, sendWebDavRequest_eq, sendVia_ok L _ _ s req resp w1 body hreq hdo hbody]
  rw [hrun]
  refine ⟨?_, ?_, ?_, ?_⟩
  · intro h
    cases body with
    | nil => rfl
    | cons b rest =>
      have hb : b ≠ 0x3C := by simpa using h
      simp [davOutcome, hb]
  · intro e hh hu
    cases body with
    | nil => simp at hh
    | cons b rest =>
      have hb : b = 0x3C := by simpa using hh
      subst hb
      simp [davOutcome, hu]
  · intro re hh hu hx
    cases body with
    | nil => simp at hh
    | cons b rest =>
      have hb : b = 0x3C := by simpa using hh
      subst hb
      simp [davOutcome, hu, hx]
  · intro re hh hu hx
    cases body with
    | nil => simp at hh
    | cons b rest =>
      have hb : b = 0x3C := by simpa using hh
      subst hb
      simp [davOutcome, hu, hx]

/-- Witness of C1: a reply with status 200 and an error document makes `Download` fail with that error. -/
theorem webdav_response_handling_witness :
    (DavOp.Download.run Ref.refLib Ref.testClient "Test" (Ref.start Ref.errorWorld)).1
      = .bytes (none, some (.remote { Exception := "Forbidden", Message := "no access" })) :=
  (webdav_response_handling Ref.refLib Ref.testClient .Download "Test" (Ref.start Ref.errorWorld)
    { Method := "GET", URL := "http://localhost:18080/remote.php/webdav/Test", Header := [],
      BasicAuth := some ("admin", "password"), Body := .raw [] }
    { StatusCode := 200, Body := .ok (Ref.bytesOf
      "<error><exception>Forbidden</exception><message>no access</message></error>") }
    Ref.emptyWorld
    (Ref.bytesOf "<error><exception>Forbidden</exception><message>no access</message></error>")
    rfl rfl rfl).2.2.1
    { Exception := "Forbidden", Message := "no access" } rfl rfl (by decide)

/-- C2, as the code has it: whenever `Upload(b, p)` returns no error and the
GET request `Download(p)` builds is answered with exactly `b` (a server that
stores what is PUT and returns it on GET), `Download(p)` returns `b` with no
error exactly when `b` is empty, or does not start with `<`, or decodes as an
error document with an empty exception.  When `b` starts with `<` and does
not decode, `Download` returns `b` together with the decode error; when it
decodes with a non-empty exception, `Download` returns no bytes and the
`*Error` with the decoded exception and message. -/
theorem upload_download (L : Lib) (c : Client L) (b : Bytes) (p : String) (s s1 : State L)
    (req : Request) (resp : Response) (w2 : L.World)
    (hup : Upload L c b p s = (none, s1))
    (hreq : buildRequest L c "remote.php/webdav" [] "GET" p (.raw []) = .ok req)
    (hget : L.Do s1.world req = (.ok resp, w2))
    (hbody : resp.Body = .ok b) :
    (∃ put, put.Method = "PUT" ∧ put.Body = .raw b ∧ put.URL = req.URL ∧
      s1.sent = s.sent ++ [put]) ∧
    ((Download L c p s1).1 = (some b, none) ↔
      (b = [] ∨ b.head? ≠ some 0x3C ∨
        ∃ reqErr, L.unmarshalError b = .ok reqErr ∧ reqErr.Exception = "")) ∧
    (∀ decodeErr, b.head? = some 0x3C → L.unmarshalError b = .error decodeErr →
      (Download L c p s1).1 = (some b, some decodeErr)) ∧
    (∀ reqErr, b.head? = some 0x3C → L.unmarshalError b = .ok reqErr → reqErr.Exception ≠ "" →
      (Download L c p s1).1
        = (none, some (.remote { Exception := reqErr.Exception, Message := reqErr.Message }))) ∧
    (Download L c p s1).2 = { world := w2, sent := s1.sent ++ [req] } := by
  have hdl : Download L c p s1 = (davOutcome L b, { world := w2, sent := s1.sent ++ [req] }) := by
    rw [Download, sendWebDavRequest_eq, sendVia_ok L _ _ s1 req resp w2 b hreq hget hbody]
  have hrun : (Download L c p s1).1 = davOutcome L b := by rw [hdl]
  refine ⟨?_, ?_, ?_, ?_, by rw [hdl]⟩
  · obtain ⟨put, hput, hsent⟩ := Upload_ok_sent L c b p s s1 hup
    refine ⟨put, ?_, ?_, ?_, hsent⟩
    all_goals
      simp only [buildRequest] at hput hreq
      cases hp : L.urlParse (filepathJoin ["remote.php/webdav", p]) with
      | error e => simp [hp] at hreq
      | ok u =>
        simp only [hp] at hput hreq
        cases hn : L.newRequestError "PUT" (L.urlString (L.ResolveReference c.Url u)) with
        | some e => simp [hn] at hput
        | none =>
          cases hg : L.newRequestError "GET" (L.urlString (L.ResolveReference c.Url u)) with
          | some e => simp [hg] at hreq
          | none =>
            simp only [hn, hg, Except.ok.injEq] at hput hreq
            subst hput
            subst hreq
            simp
  · rw [hrun]
    cases b with
    | nil => simp [davOutcome]
    | cons x rest =>
      by_cases hx : x = 0x3C
      · subst hx
        cases hu : L.unmarshalError (0x3C :: rest) with
        | error e => simp [davOutcome, hu]
        | ok re => by_cases hex : re.Exception = "" <;> simp [davOutcome, hu, hex]
      · simp [davOutcome, hx]
  · intro e hh hu
    rw [hrun]
    cases b with
    | nil => simp at hh
    | cons x rest =>
      have hx : x = 0x3C := by simpa using hh
      subst hx
      simp [davOutcome, hu]
  · intro re hh hu hex
    rw [hrun]
    cases b with
    | nil => simp at hh
    | cons x rest =>
      have hx : x = 0x3C := by simpa using hh
      subst hx
      simp [davOutcome, hu, hex]

/-- Witness of C2 as amended: the test file of the repository comes back
unchanged, and the one byte `<` comes back together with the decode error. -/
theorem upload_download_witness :
    (Download Ref.refLib Ref.testClient "Test/test.txt"
      (Upload Ref.refLib Ref.testClient (Ref.bytesOf "Hello World!\n") "Test/test.txt"
        (Ref.start Ref.emptyWorld)).2).1 = (some (Ref.bytesOf "Hello World!\n"), none) ∧
    (Download Ref.refLib Ref.testClient "Test/test.txt"
      (Upload Ref.refLib Ref.testClient (Ref.bytesOf "<") "Test/test.txt"
        (Ref.start Ref.emptyWorld)).2).1
      = (some (Ref.bytesOf "<"),
         some (.foreign "encoding/xml" "XML syntax error on line 1: unexpected EOF")) :=
  ⟨(upload_download Ref.refLib Ref.testClient (Ref.bytesOf "Hello World!\n") "Test/test.txt"
      (Ref.start Ref.emptyWorld)
      (Upload Ref.refLib Ref.testClient (Ref.bytesOf "Hello World!\n") "Test/test.txt"
        (Ref.start Ref.emptyWorld)).2
      { Method := "GET", URL := "http://localhost:18080/remote.php/webdav/Test/test.txt",
        Header := [], BasicAuth := some ("admin", "password"), Body := .raw [] }
      { StatusCode := 200, Body := .ok (Ref.bytesOf "Hello World!\n") }
      { files := [], globs := [],
        store := [("http://localhost:18080/remote.php/webdav/Test/test.txt",
                   Ref.bytesOf "Hello World!\n")],
        replies := [] }
      rfl rfl rfl rfl).2.1.2 (Or.inr (Or.inl (by decide))),
   (upload_download Ref.refLib Ref.testClient (Ref.bytesOf "<") "Test/test.txt"
      (Ref.start Ref.emptyWorld)
      (Upload Ref.refLib Ref.testClient (Ref.bytesOf "<") "Test/test.txt"
        (Ref.start Ref.emptyWorld)).2
      { Method := "GET", URL := "http://localhost:18080/remote.php/webdav/Test/test.txt",
        Header := [], BasicAuth := some ("admin", "password"), Body := .raw [] }
      { StatusCode := 200, Body := .ok (Ref.bytesOf "<") }
      { files := [], globs := [],
        store := [("http://localhost:18080/remote.php/webdav/Test/test.txt", Ref.bytesOf "<")],
        replies := [] }
      rfl rfl rfl rfl).2.2.1
      (.foreign "encoding/xml" "XML syntax error on line 1: unexpected EOF") rfl rfl⟩

/-- C2 fails on the code: the server stores what is PUT and returns it on GET,
`Upload` of the one byte `<` succeeds, and `Download` of the same path returns
an error (the body does not decode); for a stored error document it returns no
bytes at all. -/
theorem upload_download_not_identity :
    (Upload Ref.refLib Ref.testClient (Ref.bytesOf "<") "Test/test.txt"
      (Ref.start Ref.emptyWorld)).1 = none ∧
    (Download Ref.refLib Ref.testClient "Test/test.txt"
      (Upload Ref.refLib Ref.testClient (Ref.bytesOf "<") "Test/test.txt"
        (Ref.start Ref.emptyWorld)).2).1
      = (some (Ref.bytesOf "<"),
         some (.foreign "encoding/xml" "XML syntax error on line 1: unexpected EOF")) ∧
    (Upload Ref.refLib Ref.testClient (Ref.bytesOf "<a><exception>x</exception></a>") "f.xml"
      (Ref.start Ref.emptyWorld)).1 = none ∧
    (Download Ref.refLib Ref.testClient "f.xml"
      (Upload Ref.refLib Ref.testClient (Ref.bytesOf "<a><exception>x</exception></a>") "f.xml"
        (Ref.start Ref.emptyWorld)).2).1
      = (none, some (.remote { Exception := "x", Message := "" })) := by
  refine ⟨rfl, rfl, rfl, rfl⟩

/-- C3: when the response body decodes to a `ShareResult`, an Apps operation
succeeds exactly when the decoded status code is 100 and a Share operation
exactly when it is 200; on success the result is the decoded `ShareResult`, and
otherwise there is no result and the error text is `share API returned an
unsuccessful status code ` followed by the decimal numeral of the decoded
status code (digits only, at least one, reading back as that code). -/
theorem api_status_code (L : Lib) (c : Client L) (op : ApiOp) (s : State L) (req : Request)
    (resp : Response) (w1 : L.World) (body : Bytes) (result : ShareResult)
    (hreq : buildRequest L c op.root ocsHeader op.verb op.path (.text op.data) = .ok req)
    (hdo : L.Do s.world req = (.ok resp, w1))
    (hbody : resp.Body = .ok body)
    (hdecode : L.unmarshalShareResult body = .ok result) :
    (op.run L c s).1
      = (if result.StatusCode = (if op.isApps then 100 else 200) then (some result, none)
         else (none, some (.errorString
           ("share API returned an unsuccessful status code " ++ fmtUint result.StatusCode)))) ∧
    ((∃ r, (op.run L c s).1 = (some r, none)) ↔ result.StatusCode = (if op.isApps then 100 else 200)) ∧
    (decimalValue (fmtUint result.StatusCode) = result.StatusCode ∧
      (fmtUint result.StatusCode).data.all Char.isDigit = true ∧
      fmtUint result.StatusCode ≠ "") := by
  have hrun : (op.run L c s).1 = shareOutcome L op.want body := by
    rw [ApiOp.api_run_eq, sendVia_ok L _ _ s req resp w1 body hreq hdo hbody]
  rw [hrun]
  simp only [shareOutcome, hdecode, ApiOp.want, apiError]
  refine ⟨trivial, ?_, fmtUint_decimal result.StatusCode⟩
  by_cases h : result.StatusCode = (if op.isApps then 100 else 200)
  · rw [if_pos h]
    exact ⟨fun _ => h, fun _ => ⟨result, rfl⟩⟩
  · rw [if_neg h]
    constructor
    · rintro ⟨r, hr⟩
      simp at hr
    · intro h1
      exact absurd h1 h

/-- Witness of C3: `CreateGroupFolder` answered with status code 100 succeeds;
answered with status code 404 it fails with the text ending in `404`; and
`DeleteShare` answered with status code 100 (success for Apps, not for Share)
fails with the text ending in `100`. -/
theorem api_status_code_witness :
    (ApiOp.run Ref.refLib Ref.testClient (.CreateGroupFolder "GroupFolder") (Ref.start Ref.okWorld)).1
      = (some { Status := "ok", StatusCode := 100, Message := "", Id := 7, Url := "", Elements := [] },
         none) ∧
    (ApiOp.run Ref.refLib Ref.testClient (.CreateGroupFolder "GroupFolder")
        (Ref.start Ref.failureWorld)).1
      = (none, some (.errorString "share API returned an unsuccessful status code 404")) ∧
    (ApiOp.run Ref.refLib Ref.testClient (.DeleteShare 42) (Ref.start Ref.okWorld)).1
      = (none, some (.errorString "share API returned an unsuccessful status code 100")) :=
  ⟨(api_status_code Ref.refLib Ref.testClient (.CreateGroupFolder "GroupFolder")
      (Ref.start Ref.okWorld)
      { Method := "POST", URL := "http://localhost:18080/apps/groupfolders/folders",
        Header := ocsHeader, BasicAuth := some ("admin", "password"),
        Body := .text "mountpoint=GroupFolder" }
      { StatusCode := 200, Body := .ok (Ref.bytesOf
        "<ocs><meta><status>ok</status><statuscode>100</statuscode></meta><data><id>7</id></data></ocs>") }
      Ref.emptyWorld
      (Ref.bytesOf
        "<ocs><meta><status>ok</status><statuscode>100</statuscode></meta><data><id>7</id></data></ocs>")
      { Status := "ok", StatusCode := 100, Message := "", Id := 7, Url := "", Elements := [] }
      rfl rfl rfl rfl).1,
   (api_status_code Ref.refLib Ref.testClient (.CreateGroupFolder "GroupFolder")
      (Ref.start Ref.failureWorld)
      { Method := "POST", URL := "http://localhost:18080/apps/groupfolders/folders",
        Header := ocsHeader, BasicAuth := some ("admin", "password"),
        Body := .text "mountpoint=GroupFolder" }
      { StatusCode := 200, Body := .ok (Ref.bytesOf
        "<ocs><meta><status>failure</status><statuscode>404</statuscode><message>not found</message></meta><data></data></ocs>") }
      Ref.emptyWorld
      (Ref.bytesOf
        "<ocs><meta><status>failure</status><statuscode>404</statuscode><message>not found</message></meta><data></data></ocs>")
      { Status := "failure", StatusCode := 404, Message := "not found", Id := 0, Url := "",
        Elements := [] }
      rfl rfl rfl rfl).1,
   (api_status_code Ref.refLib Ref.testClient (.DeleteShare 42) (Ref.start Ref.okWorld)
      { Method := "DELETE",
        URL := "http://localhost:18080/ocs/v2.php/apps/files_sharing/api/v1/shares/42",
        Header := ocsHeader, BasicAuth := some ("admin", "password"), Body := .text "" }
      { StatusCode := 200, Body := .ok (Ref.bytesOf
        "<ocs><meta><status>ok</status><statuscode>100</statuscode></meta><data><id>7</id></data></ocs>") }
      Ref.emptyWorld
      (Ref.bytesOf
        "<ocs><meta><status>ok</status><statuscode>100</statuscode></meta><data><id>7</id></data></ocs>")
      { Status := "ok", StatusCode := 100, Message := "", Id := 7, Url := "", Elements := [] }
      rfl rfl rfl rfl).1⟩

/-- C4: `NewStorage` fails when the url is empty, fails when the username is
empty and fails when the password is empty; when all three are non-empty and
`url.Parse` accepts the url, it succeeds and the client holds exactly the
parsed url, the username and the password. -/
theorem NewStorage_contract (L : Lib) (cloudUrl username password : String) :
    NewStorage L "" username password = (none, some (.errorString "missing url")) ∧
    ((NewStorage L cloudUrl "" password).1 = none ∧ (NewStorage L cloudUrl "" password).2 ≠ none) ∧
    ((NewStorage L cloudUrl username "").1 = none ∧ (NewStorage L cloudUrl username "").2 ≠ none) ∧
    (∀ parsedUrl, cloudUrl ≠ "" → username ≠ "" → password ≠ "" →
      L.urlParse cloudUrl = .ok parsedUrl →
      NewStorage L cloudUrl username password
        = (some { Url := parsedUrl, Username := username, Password := password }, none)) := by
  refine ⟨by simp [NewStorage], ?_, ?_, ?_⟩
  · by_cases h : cloudUrl = "" <;> simp [NewStorage, h]
  · by_cases h : cloudUrl = "" <;> simp [NewStorage, h]
  · intro parsedUrl h1 h2 h3 hp
    simp [NewStorage, h1, h2, h3, hp]

/-- Witness of C4: the client of the repository's tests. -/
theorem NewStorage_contract_witness :
    NewStorage Ref.refLib "http://localhost:18080/" "admin" "password"
      = (some { Url := ({ Scheme := "http", Host := "localhost:18080", Path := "/" } : Ref.URL),
                Username := "admin", Password := "password" }, none) :=
  (NewStorage_contract Ref.refLib "http://localhost:18080/" "admin" "password").2.2.2
    { Scheme := "http", Host := "localhost:18080", Path := "/" }
    (by decide) (by decide) (by decide) rfl

/-- C5, as the code has it: with a non-empty url, username and password,
`NewStorage` fails exactly when `url.Parse` rejects the url, and then with the
error `invalid url` and no client; whether the url is absolute plays no part. -/
theorem NewStorage_invalid_url (L : Lib) (cloudUrl username password : String)
    (hurl : cloudUrl ≠ "") (huser : username ≠ "") (hpass : password ≠ "") :
    ((∃ e, L.urlParse cloudUrl = .error e) →
      NewStorage L cloudUrl username password = (none, some (.errorString "invalid url"))) ∧
    (∀ parsedUrl, L.urlParse cloudUrl = .ok parsedUrl →
      NewStorage L cloudUrl username password
        = (some { Url := parsedUrl, Username := username, Password := password }, none)) := by
  constructor
  · rintro ⟨e, he⟩
    simp [NewStorage, hurl, huser, hpass, he]
  · intro parsedUrl hp
    simp [NewStorage, hurl, huser, hpass, hp]

/-- Witness of C5 as amended: a url with a blank in the host is rejected. -/
theorem NewStorage_invalid_url_witness :
    NewStorage Ref.refLib "http://local host/" "admin" "password"
      = (none, some (.errorString "invalid url")) :=
  (NewStorage_invalid_url Ref.refLib "http://local host/" "admin" "password"
    (by decide) (by decide) (by decide)).1 ⟨.foreign "net/url" "outside the fragment", rfl⟩

/-- C5 fails on the code: the relative reference `foo` is not an absolute URL,
yet `NewStorage` accepts it and returns a client. -/
theorem NewStorage_accepts_relative_url :
    NewStorage Ref.refLib "foo" "admin" "password"
      = (some { Url := ({ Scheme := "", Host := "", Path := "foo" } : Ref.URL),
                Username := "admin", Password := "password" }, none) := by
  rfl

/-- C6: both composite operations first send the `CreateShare` request (POST
to `shares` with body `path=<path>&shareType=3&publicUpload=true&permissions=4`).
If that step fails (transport error, unreadable or undecodable body, status
code other than 200) the composite returns that error and nothing more is
sent.  Otherwise it is exactly the follow-up `sendOCSRequest` PUT to
`shares/<id>`, with the id decoded from the first response and body
`permissions=4` (file drop) or `permissions=1` (read only): one more request
is sent, and the result and error are those of the follow-up. -/
theorem composite_share (L : Lib) (c : Client L) (drop : Bool) (path : String) (s : State L)
    (req1 : Request) (r1 : Except GoError Response) (w1 : L.World)
    (hreq1 : buildRequest L c "ocs/v2.php/apps/files_sharing/api/v1" ocsHeader "POST" "shares"
      (.text ("path=" ++ path ++ "&shareType=3&publicUpload=true&permissions=4")) = .ok req1)
    (hdo1 : L.Do s.world req1 = (r1, w1)) :
    (∀ err, r1 = .error err →
      compositeShare L c drop path s = ((none, some err), { world := w1, sent := s.sent ++ [req1] })) ∧
    (∀ resp err, r1 = .ok resp → resp.Body = .error err →
      compositeShare L c drop path s = ((none, some err), { world := w1, sent := s.sent ++ [req1] })) ∧
    (∀ resp body err, r1 = .ok resp → resp.Body = .ok body →
      L.unmarshalShareResult body = .error err →
      compositeShare L c drop path s = ((none, some err), { world := w1, sent := s.sent ++ [req1] })) ∧
    (∀ resp body result, r1 = .ok resp → resp.Body = .ok body →
      L.unmarshalShareResult body = .ok result → result.StatusCode ≠ 200 →
      compositeShare L c drop path s
        = ((none, some (.errorString
            ("share API returned an unsuccessful status code " ++ fmtUint result.StatusCode))),
           { world := w1, sent := s.sent ++ [req1] })) ∧
    (∀ resp body result, r1 = .ok resp → resp.Body = .ok body →
      L.unmarshalShareResult body = .ok result → result.StatusCode = 200 →
      compositeShare L c drop path s
          = sendOCSRequest L c "PUT" ("shares/" ++ fmtUint result.Id)
              (if drop then "permissions=4" else "permissions=1")
              { world := w1, sent := s.sent ++ [req1] } ∧
      (∀ err, buildRequest L c "ocs/v2.php/apps/files_sharing/api/v1" ocsHeader "PUT"
            ("shares/" ++ fmtUint result.Id)
            (.text (if drop then "permissions=4" else "permissions=1")) = .error err →
        compositeShare L c drop path s
          = ((none, some err), { world := w1, sent := s.sent ++ [req1] })) ∧
      (∀ req2, buildRequest L c "ocs/v2.php/apps/files_sharing/api/v1" ocsHeader "PUT"
            ("shares/" ++ fmtUint result.Id)
            (.text (if drop then "permissions=4" else "permissions=1")) = .ok req2 →
        (compositeShare L c drop path s).2.sent = s.sent ++ [req1, req2])) := by
  have hn : narrowed drop = (if drop then "permissions=4" else "permissions=1") := by
    cases drop <;> rfl
  have hfirst := sendVia_do L _ (shareOutcome L 200) s req1 r1 w1 hreq1 hdo1
  rw [← sendOCSRequest_eq] at hfirst
  rw [compositeShare_eq, hfirst, hn]
  refine ⟨?_, ?_, ?_, ?_, ?_⟩
  · rintro e rfl
    rfl
  · rintro resp e rfl hb
    simp [hb]
  · rintro resp body e rfl hb hu
    simp [hb, shareOutcome, hu]
  · rintro resp body result rfl hb hu hc
    simp [hb, shareOutcome, hu, hc, apiError]
  · rintro resp body result rfl hb hu hc
    simp only [hb, shareOutcome, hu, hc, if_true]
    refine ⟨trivial, ?_, ?_⟩
    · intro e he
      rw [sendOCSRequest_eq, he]
      rfl
    · intro req2 h2
      rw [sendOCSRequest_eq, sendVia_sent, h2]
      simp

/-- Witness of C6: `CreateFileDropShare` sends the POST and then the PUT to `shares/42`. -/
theorem composite_share_witness :
    (compositeShare Ref.refLib Ref.testClient true "ShareTest" (Ref.start Ref.shareWorld)).2.sent
      = [] ++
        [{ Method := "POST",
           URL := "http://localhost:18080/ocs/v2.php/apps/files_sharing/api/v1/shares",
           Header := ocsHeader, BasicAuth := some ("admin", "password"),
           Body := .text "path=ShareTest&shareType=3&publicUpload=true&permissions=4" },
         { Method := "PUT",
           URL := "http://localhost:18080/ocs/v2.php/apps/files_sharing/api/v1/shares/42",
           Header := ocsHeader, BasicAuth := some ("admin", "password"),
           Body := .text "permissions=4" }] :=
  ((composite_share Ref.refLib Ref.testClient true "ShareTest" (Ref.start Ref.shareWorld)
    { Method := "POST",
      URL := "http://localhost:18080/ocs/v2.php/apps/files_sharing/api/v1/shares",
      Header := ocsHeader, BasicAuth := some ("admin", "password"),
      Body := .text "path=ShareTest&shareType=3&publicUpload=true&permissions=4" }
    (.ok Ref.createdReply)
    { files := [], globs := [], store := [], replies := [Ref.updatedReply] }
    rfl rfl).2.2.2.2 Ref.createdReply
    (Ref.bytesOf
      "<ocs><meta><status>ok</status><statuscode>200</statuscode></meta><data><id>42</id></data></ocs>")
    { Status := "ok", StatusCode := 200, Message := "", Id := 42, Url := "", Elements := [] }
    rfl rfl rfl rfl).2.2
    { Method := "PUT",
      URL := "http://localhost:18080/ocs/v2.php/apps/files_sharing/api/v1/shares/42",
      Header := ocsHeader, BasicAuth := some ("admin", "password"),
      Body := .text "permissions=4" } rfl

/-- C7: let the glob expand to `files`.  If every file reads and every upload
succeeds, `UploadDir` returns exactly `files` with no error, and what it sent
is one PUT per file, in order, each carrying the contents of its file to the
destination joined with the file's base name.  If the files before `file` read
and upload and the read or the upload of `file` fails, `UploadDir` returns
that error with no list and stops in the state that attempt left: the requests
of the earlier files stay sent, and nothing is sent for a later file.  The
destination of a file is `<dest>/<base name>` under `remote.php/webdav/`: for
a clean relative `dest`, written with or without a slash at its end, and a
clean base name, the reference of the request is
`remote.php/webdav/<dest>/<base name>`, and the base name of `<dir>/<name>` or
of `<name>` alone is `<name>`. -/
theorem upload_dir (L : Lib) (c : Client L) (src dest : String) (s : State L)
    (files : List String) (hglob : L.Glob s.world src = .ok files) :
    (∀ datas s2, UploadedAll L c dest files datas s s2 →
      UploadDir L c src dest s = ((some files, none), s2) ∧
      ∃ reqs, s2.sent = s.sent ++ reqs ∧ reqs.length = files.length ∧
        List.Forall₂ (fun (fd : String × Bytes) (req : Request) =>
          req.Method = "PUT" ∧ req.Body = .raw fd.2 ∧
          req.BasicAuth = some (c.Username, c.Password) ∧
          ∃ folderUrl,
            L.urlParse (filepathJoin
              ["remote.php/webdav", filepathJoin [dest, filepathBase fd.1]]) = .ok folderUrl ∧
            req.URL = L.urlString (L.ResolveReference c.Url folderUrl))
          (files.zip datas) reqs) ∧
    (∀ done file rest datas s1 err s2, files = done ++ file :: rest →
      UploadedAll L c dest done datas s s1 → FailsAt L c dest file s1 err s2 →
      UploadDir L c src dest s = ((none, some err), s2) ∧
      ∃ reqs, s1.sent = s.sent ++ reqs ∧ reqs.length = done.length ∧
        (s2.sent = s1.sent ∨
          ∃ req, req.Method = "PUT" ∧ s2.sent = s1.sent ++ [req] ∧
            buildRequest L c "remote.php/webdav" [] "PUT"
              (filepathJoin [dest, filepathBase file]) req.Body = .ok req)) ∧
    (∀ d file, CleanRel d → CleanRel (filepathBase file) → (dest = d ∨ dest = d ++ "/") →
      filepathJoin [dest, filepathBase file] = d ++ "/" ++ filepathBase file ∧
      filepathJoin ["remote.php/webdav", filepathJoin [dest, filepathBase file]]
        = "remote.php/webdav/" ++ (d ++ "/" ++ filepathBase file)) ∧
    (∀ dir name, name ≠ "" → (∀ ch ∈ name.data, ch ≠ '/') →
      filepathBase (dir ++ "/" ++ name) = name ∧ filepathBase name = name) := by
  refine ⟨?_, ?_, ?_, fun dir name hne hns => filepathBase_of_name dir name hne hns⟩
  rotate_left 2
  · intro d file hd hb hdest
    have hj : filepathJoin [dest, filepathBase file] = d ++ "/" ++ filepathBase file := by
      rcases hdest with rfl | rfl
      · exact (filepathJoin_dir _ _ hd hb).1
      · exact (filepathJoin_dir _ _ hd hb).2
    exact ⟨hj, by rw [hj]; exact webdav_join_clean _ (cleanRel_join d _ hd hb)⟩
  · intro datas s2 hall
    obtain ⟨hloop, reqs, hsent, hreqs⟩ := uploadFiles_all L c dest files datas s s2 hall
    refine ⟨by simp only [UploadDir, hglob, hloop], reqs, hsent, ?_, ?_⟩
    · have hlen := hreqs.length_eq
      have hd : datas.length = files.length := UploadedAll_length L c dest files datas s s2 hall
      rw [← hlen, List.length_zip, hd, Nat.min_self]
    · refine hreqs.imp ?_
      intro fd req hreq
      simp only [buildRequest] at hreq
      cases hp : L.urlParse (filepathJoin
          ["remote.php/webdav", filepathJoin [dest, filepathBase fd.1]]) with
      | error e => simp [hp] at hreq
      | ok u =>
        simp only [hp] at hreq
        cases hn : L.newRequestError "PUT" (L.urlString (L.ResolveReference c.Url u)) with
        | some e => simp [hn] at hreq
        | none =>
          simp only [hn, Except.ok.injEq] at hreq
          subst hreq
          exact ⟨by simp, rfl, rfl, u, rfl, rfl⟩
  · intro done file rest datas s1 err s2 hfiles hall hfail
    obtain ⟨_, reqs, hsent, hreqs⟩ := uploadFiles_all L c dest done datas s s1 hall
    have hd : datas.length = done.length := UploadedAll_length L c dest done datas s s1 hall
    refine ⟨?_, reqs, hsent, ?_, ?_⟩
    · have hloop : uploadFiles L c dest files s = (some err, s2) := by
        rw [hfiles, uploadFiles_append L c dest done (file :: rest) datas s s1 hall]
        exact uploadFiles_fails L c dest file rest s1 s2 err hfail
      simp only [UploadDir, hglob, hloop]
    · rw [← hreqs.length_eq, List.length_zip, hd, Nat.min_self]
    · rcases hfail with ⟨_, rfl⟩ | ⟨data, _, hup⟩
      · exact Or.inl rfl
      · have hs : s2 = (sendWebDavRequest L c "PUT" (filepathJoin [dest, filepathBase file])
            data s1).2 := by
          have := congrArg Prod.snd hup
          simpa [Upload] using this.symm
        rw [sendWebDavRequest_eq] at hs
        cases hb : buildRequest L c "remote.php/webdav" [] "PUT"
            (filepathJoin [dest, filepathBase file]) (.raw data) with
        | error e =>
          left
          rw [hs, sendVia_sent, hb]
        | ok req =>
          right
          have hbody : req.Body = .raw data := by
            simp only [buildRequest] at hb
            cases hp : L.urlParse (filepathJoin
                ["remote.php/webdav", filepathJoin [dest, filepathBase file]]) with
            | error e => simp [hp] at hb
            | ok u =>
              simp only [hp] at hb
              cases hn : L.newRequestError "PUT" (L.urlString (L.ResolveReference c.Url u)) with
              | some e => simp [hn] at hb
              | none =>
                simp only [hn, Except.ok.injEq] at hb
                subst hb
                rfl
          have hm : req.Method = "PUT" := by
            simp only [buildRequest] at hb
            cases hp : L.urlParse (filepathJoin
                ["remote.php/webdav", filepathJoin [dest, filepathBase file]]) with
            | error e => simp [hp] at hb
            | ok u =>
              simp only [hp] at hb
              cases hn : L.newRequestError "PUT" (L.urlString (L.ResolveReference c.Url u)) with
              | some e => simp [hn] at hb
              | none =>
                simp only [hn, Except.ok.injEq] at hb
                subst hb
                simp
          refine ⟨req, hm, ?_, ?_⟩
          · rw [hs, sendVia_sent, hb]
          · rw [hbody]
            exact hb

/-- Witness of C7: two files matched, read and uploaded to
`Test/Folder/a.txt` and `Test/Folder/b.txt`; with a matched file that cannot
be read between them, the error of that read after the first upload alone;
and the destination of `d/a.txt` under `Test/Folder/`. -/
theorem upload_dir_witness :
    (UploadDir Ref.refLib Ref.testClient "d/*" "Test/Folder/" (Ref.start Ref.dirWorld)).1
      = (some ["d/a.txt", "d/b.txt"], none) ∧
    (UploadDir Ref.refLib Ref.testClient "d/*" "Test/Folder/" (Ref.start Ref.dirWorld)).2.sent
      = [{ Method := "PUT", URL := "http://localhost:18080/remote.php/webdav/Test/Folder/a.txt",
           Header := [], BasicAuth := some ("admin", "password"), Body := .raw (Ref.bytesOf "A") },
         { Method := "PUT", URL := "http://localhost:18080/remote.php/webdav/Test/Folder/b.txt",
           Header := [], BasicAuth := some ("admin", "password"), Body := .raw (Ref.bytesOf "B") }] ∧
    (UploadDir Ref.refLib Ref.testClient "d/*" "Test/Folder/" (Ref.start Ref.gapWorld)).1
      = (none, some (.foreign "os" "no such file or directory")) ∧
    (UploadDir Ref.refLib Ref.testClient "d/*" "Test/Folder/" (Ref.start Ref.gapWorld)).2.sent
      = [{ Method := "PUT", URL := "http://localhost:18080/remote.php/webdav/Test/Folder/a.txt",
           Header := [], BasicAuth := some ("admin", "password"), Body := .raw (Ref.bytesOf "A") }] ∧
    filepathJoin ["remote.php/webdav", filepathJoin ["Test/Folder/", filepathBase "d/a.txt"]]
      = "remote.php/webdav/Test/Folder/a.txt" :=
  have hall := ((upload_dir Ref.refLib Ref.testClient "d/*" "Test/Folder/" (Ref.start Ref.dirWorld)
      ["d/a.txt", "d/b.txt"] rfl).1 [Ref.bytesOf "A", Ref.bytesOf "B"]
      (Upload Ref.refLib Ref.testClient (Ref.bytesOf "B") "Test/Folder/b.txt"
        (Upload Ref.refLib Ref.testClient (Ref.bytesOf "A") "Test/Folder/a.txt"
          (Ref.start Ref.dirWorld)).2).2
      (UploadedAll.cons "d/a.txt" ["d/b.txt"] (Ref.bytesOf "A") [Ref.bytesOf "B"]
        (Ref.start Ref.dirWorld)
        (Upload Ref.refLib Ref.testClient (Ref.bytesOf "A") "Test/Folder/a.txt"
          (Ref.start Ref.dirWorld)).2
        _ rfl rfl
        (UploadedAll.cons "d/b.txt" [] (Ref.bytesOf "B") [] _ _ _ rfl rfl
          (UploadedAll.nil _)))).1
  have hgap := ((upload_dir Ref.refLib Ref.testClient "d/*" "Test/Folder/" (Ref.start Ref.gapWorld)
      ["d/a.txt", "d/missing.txt", "d/b.txt"] rfl).2.1 ["d/a.txt"] "d/missing.txt" ["d/b.txt"]
      [Ref.bytesOf "A"]
      (Upload Ref.refLib Ref.testClient (Ref.bytesOf "A") "Test/Folder/a.txt"
        (Ref.start Ref.gapWorld)).2
      (.foreign "os" "no such file or directory")
      (Upload Ref.refLib Ref.testClient (Ref.bytesOf "A") "Test/Folder/a.txt"
        (Ref.start Ref.gapWorld)).2
      rfl
      (UploadedAll.cons "d/a.txt" [] (Ref.bytesOf "A") [] (Ref.start Ref.gapWorld) _ _ rfl rfl
        (UploadedAll.nil _))
      (Or.inl ⟨rfl, rfl⟩)).1
  ⟨congrArg Prod.fst hall,
   (congrArg (fun r => r.2.sent) hall).trans rfl,
   congrArg Prod.fst hgap,
   (congrArg (fun r => r.2.sent) hgap).trans rfl,
   ((upload_dir Ref.refLib Ref.testClient "d/*" "Test/Folder/" (Ref.start Ref.dirWorld)
      ["d/a.txt", "d/b.txt"] rfl).2.2.1 "Test/Folder" "d/a.txt" (by decide) (by decide)
      (Or.inr rfl)).2⟩

/-- C8, as the code has it: each of `Mkdir`, `Delete`, `Upload`, `Download` and
`Exists` sends at most one request.  It sends none when the reference
`filepath.Join("remote.php/webdav", path)` does not parse as a URL or the
request cannot be built; otherwise exactly one, with the operation's verb
(MKCOL, DELETE, PUT, GET, PROPFIND), the URL obtained by resolving that
reference against the base URL, Basic Authentication with the stored username
and password, no header, and the raw bytes (`Upload`) or nothing as body.
The reference is `remote.php/webdav/<path>` when the path is made of
non-empty elements other than `.` and `..` separated by single slashes. -/
theorem webdav_request (L : Lib) (c : Client L) (op : DavOp) (path : String) (s : State L) :
    (∀ err, L.urlParse (filepathJoin ["remote.php/webdav", path]) = .error err →
      (op.run L c path s).2.sent = s.sent) ∧
    (∀ folderUrl err, L.urlParse (filepathJoin ["remote.php/webdav", path]) = .ok folderUrl →
      L.newRequestError op.verb (L.urlString (L.ResolveReference c.Url folderUrl)) = some err →
      (op.run L c path s).2.sent = s.sent) ∧
    (∀ folderUrl, L.urlParse (filepathJoin ["remote.php/webdav", path]) = .ok folderUrl →
      L.newRequestError op.verb (L.urlString (L.ResolveReference c.Url folderUrl)) = none →
      (op.run L c path s).2.sent
        = s.sent ++ [{ Method := op.verb,
                       URL := L.urlString (L.ResolveReference c.Url folderUrl),
                       Header := [],
                       BasicAuth := some (c.Username, c.Password),
                       Body := .raw op.data }]) ∧
    (CleanRel path → filepathJoin ["remote.php/webdav", path] = "remote.php/webdav/" ++ path) ∧
    (DavOp.Mkdir.verb = "MKCOL" ∧ DavOp.Delete.verb = "DELETE" ∧ DavOp.Download.verb = "GET" ∧
      DavOp.Exists.verb = "PROPFIND" ∧ DavOp.Mkdir.data = [] ∧ DavOp.Delete.data = [] ∧
      DavOp.Download.data = [] ∧ DavOp.Exists.data = [] ∧
      ∀ src, (DavOp.Upload src).verb = "PUT" ∧ (DavOp.Upload src).data = src) := by
  refine ⟨?_, ?_, ?_, webdav_join_clean path, ?_⟩
  · intro e hp
    rw [DavOp.run_sent]
    simp [buildRequest, hp]
  · intro u e hp hn
    rw [DavOp.run_sent]
    simp [buildRequest, hp, hn]
  · intro u hp hn
    rw [DavOp.run_sent]
    simp [buildRequest, hp, hn, DavOp.verb_ne_empty op]
  · exact ⟨rfl, rfl, rfl, rfl, rfl, rfl, rfl, rfl, fun _ => ⟨rfl, rfl⟩⟩

/-- Witness of C8 as amended: the `Upload` of the repository's test. -/
theorem webdav_request_witness :
    (DavOp.run Ref.refLib Ref.testClient (.Upload (Ref.bytesOf "Hello World!\n")) "Test/test.txt"
        (Ref.start Ref.emptyWorld)).2.sent
      = [{ Method := "PUT", URL := "http://localhost:18080/remote.php/webdav/Test/test.txt",
           Header := [], BasicAuth := some ("admin", "password"),
           Body := .raw (Ref.bytesOf "Hello World!\n") }] :=
  (webdav_request Ref.refLib Ref.testClient (.Upload (Ref.bytesOf "Hello World!\n"))
    "Test/test.txt" (Ref.start Ref.emptyWorld)).2.2.1
    { Scheme := "", Host := "", Path := "remote.php/webdav/Test/test.txt" } rfl rfl

/-- C8 fails on the code: for a path with a line feed the reference does not
parse and `Download` sends no request at all; for the path `../../status.php`
the joined reference is `status.php`, and `Download` requests
`<base>status.php`, which is not the base URL followed by `remote.php/webdav/`
and the path. -/
theorem webdav_request_leaves_root :
    (Download Ref.refLib Ref.testClient "a\nb" (Ref.start Ref.emptyWorld)).2.sent = [] ∧
    filepathJoin ["remote.php/webdav", "../../status.php"] = "status.php" ∧
    (Download Ref.refLib Ref.testClient "../../status.php" (Ref.start Ref.emptyWorld)).2.sent
      = [{ Method := "GET", URL := "http://localhost:18080/status.php", Header := [],
           BasicAuth := some ("admin", "password"), Body := .raw [] }] ∧
    Ref.urlString Ref.testClient.Url = "http://localhost:18080/" ∧
    "http://localhost:18080/status.php"
      ≠ "http://localhost:18080/" ++ "remote.php/webdav/" ++ "../../status.php" ∧
    "http://localhost:18080/status.php"
      ≠ "http://localhost:18080/" ++ "/remote.php/webdav/" ++ "../../status.php" := by
  refine ⟨rfl, by decide, rfl, by decide, by decide, by decide⟩

/-- C9, as the code has it: when the response body of an Apps operation fails
to decode, the operation returns no result and the decoder's own error, not
the status-code error. -/
theorem apps_decode_failure (L : Lib) (c : Client L) (op : ApiOp) (s : State L) (req : Request)
    (resp : Response) (w1 : L.World) (body : Bytes) (decodeErr : GoError)
    (happs : op.isApps = true)
    (hreq : buildRequest L c "apps" ocsHeader "POST" op.path (.text op.data) = .ok req)
    (hdo : L.Do s.world req = (.ok resp, w1))
    (hbody : resp.Body = .ok body)
    (hdecode : L.unmarshalShareResult body = .error decodeErr) :
    (op.run L c s).1 = (none, some decodeErr) := by
  have hroot : op.root = "apps" := by simp [ApiOp.root, happs]
  have hverb : op.verb = "POST" := by cases op <;> simp_all [ApiOp.verb, ApiOp.isApps]
  rw [ApiOp.api_run_eq, hroot, hverb, sendVia_ok L _ _ s req resp w1 body hreq hdo hbody]
  simp [shareOutcome, hdecode]

/-- Witness of C9 as amended: an empty body makes `CreateGroupFolder` return the decoder's `EOF`. -/
theorem apps_decode_failure_witness :
    (ApiOp.run Ref.refLib Ref.testClient (.CreateGroupFolder "GroupFolder")
      (Ref.start Ref.silentWorld)).1 = (none, some (.foreign "io" "EOF")) :=
  apps_decode_failure Ref.refLib Ref.testClient (.CreateGroupFolder "GroupFolder")
    (Ref.start Ref.silentWorld)
    { Method := "POST", URL := "http://localhost:18080/apps/groupfolders/folders",
      Header := ocsHeader, BasicAuth := some ("admin", "password"),
      Body := .text "mountpoint=GroupFolder" }
    { StatusCode := 200, Body := .ok [] } Ref.emptyWorld [] (.foreign "io" "EOF")
    rfl rfl rfl rfl rfl

/-- C9 fails on the code: the server answers `AddGroupToGroupFolder` with an
empty body, which does not decode; the operation returns the decoder's `EOF`,
which is not the error built for an unsuccessful status code, whatever the code. -/
theorem apps_decode_failure_is_not_api_error :
    (AddGroupToGroupFolder Ref.refLib Ref.testClient "admin" 1 (Ref.start Ref.silentWorld)).1
      = (none, some (.foreign "io" "EOF")) ∧
    Ref.refLib.unmarshalShareResult [] = .error (.foreign "io" "EOF") ∧
    ¬ ∃ code : Nat,
      (AddGroupToGroupFolder Ref.refLib Ref.testClient "admin" 1 (Ref.start Ref.silentWorld)).1.2
        = some (.errorString ("share API returned an unsuccessful status code " ++ fmtUint code)) := by
  refine ⟨rfl, rfl, ?_⟩
  rintro ⟨code, h⟩
  have h1 : (AddGroupToGroupFolder Ref.refLib Ref.testClient "admin" 1
      (Ref.start Ref.silentWorld)).1.2 = some (.foreign "io" "EOF") := rfl
  rw [h1] at h
  simp at h

/-- C10 fails on the code: `SetGroupPermissionsForGroupFolder` hands
`sendAppsRequest` a path that already starts with `apps/`, and the request goes
to `apps/apps/groupfolders/...`, outside the collection `AddGroupToGroupFolder`
posts to. -/
theorem set_group_permissions_url :
    (SetGroupPermissionsForGroupFolder Ref.refLib Ref.testClient 31 "admin" 1
        (Ref.start Ref.emptyWorld)).2.sent
      = [{ Method := "POST",
           URL := "http://localhost:18080/apps/apps/groupfolders/folders/1/groups/admin",
           Header := [("OCS-APIRequest", "true"),
                      ("Content-Type", "application/x-www-form-urlencoded")],
           BasicAuth := some ("admin", "password"), Body := .text "permissions=31" }] ∧
    (AddGroupToGroupFolder Ref.refLib Ref.testClient "admin" 1 (Ref.start Ref.emptyWorld)).2.sent
      = [{ Method := "POST",
           URL := "http://localhost:18080/apps/groupfolders/folders/1/groups",
           Header := [("OCS-APIRequest", "true"),
                      ("Content-Type", "application/x-www-form-urlencoded")],
           BasicAuth := some ("admin", "password"), Body := .text "group=admin" }] := by
  constructor <;> rfl

end Nextcloud
